import Mathlib

/-!
# MoltFocus core — shallow embedding and verification

This file embeds the core modules of the MoltFocus daily-planning engine
(`core/rating.py`, `core/reflections.py`, `core/checkbox.py`, `core/tasks.py`,
`core/scheduler.py`, `core/focus.py`, `core/finalize.py`) as executable Lean
definitions, and proves properties of them.

Embedding conventions:
* Python strings are `List Char`; `lit s` converts a Lean string literal.
* Clock times within a day are minutes after midnight (`Nat`); a Python
  `datetime.time` with hour `h` and minute `m` corresponds to `h * 60 + m`.
* Calendar dates are proleptic-Gregorian ordinals (`Int`), the same number
  `datetime.date.toordinal` produces; subtracting ordinals gives the day gap.
* Python floats are modelled as exact rationals (`ℚ`).
* Fallible operations return `Option`/`Except`; file mutation is explicit
  state passing over a record of the workspace files a function touches.
-/

set_option maxHeartbeats 1000000

namespace MF

-- ═══════════════════════════ Prelude ═══════════════════════════

/-- Convert a Lean string literal to the `List Char` representation used for
Python strings throughout this development. -/
def lit (s : String) : List Char := s.data

/-- ASCII whitespace, as recognised by Python's `str.strip` family
(space, newline, tab, carriage return, vertical tab, form feed). -/
def isPySpace (c : Char) : Bool :=
  c == ' ' || c == '\n' || c == '\t' || c == '\r' ||
    c == Char.ofNat 11 || c == Char.ofNat 12

/-- Python `str.strip()`: drop leading and trailing whitespace. -/
def pyStrip (s : List Char) : List Char :=
  ((s.dropWhile isPySpace).reverse.dropWhile isPySpace).reverse

/-- Python `str.lstrip()`: drop leading whitespace. -/
def pyLStrip (s : List Char) : List Char := s.dropWhile isPySpace

/-- Python `"\n".join(lines)`. -/
def joinNl : List (List Char) → List Char
  | [] => []
  | [l] => l
  | l :: ls => l ++ '\n' :: joinNl ls

/-- Split a text into its lines at every newline (the inverse view used
to state which heading comes first; `"a\nb"` ↦ `["a", "b"]`,
`"a\n"` ↦ `["a", ""]`). -/
def splitOnNl : List Char → List (List Char)
  | [] => [[]]
  | c :: rest =>
    if c = '\n' then [] :: splitOnNl rest
    else
      match splitOnNl rest with
      | [] => [[c]]
      | l :: ls => (c :: l) :: ls

/-- Observer for the spec's notion of "the first `## <date>` occurrence":
the text after `## ` on the first line that starts with it. -/
def firstHeadingDate (s : List Char) : Option (List Char) :=
  ((splitOnNl s).find? (fun l => (lit "## ").isPrefixOf l)).map (fun l => l.drop 3)

/-- Stable insertion into a list already sorted by the boolean comparator
`le`; the inserted element goes before the first element it compares
`le` to, matching the placement a stable sort gives an earlier element. -/
def pyInsert (le : α → α → Bool) (x : α) : List α → List α
  | [] => [x]
  | y :: ys => if le x y then x :: y :: ys else y :: pyInsert le x ys

/-- Stable sort by a boolean comparator: the semantics of Python's
`list.sort(key=...)` (Timsort is stable; so is insertion sort). -/
def pySort (le : α → α → Bool) : List α → List α
  | [] => []
  | x :: xs => pyInsert le x (pySort le xs)

-- ═══════════════ Calendar dates (datetime.date) ═══════════════

/-- Gregorian leap-year test, as in `datetime`. -/
def isLeap (y : Nat) : Bool :=
  (y % 4 == 0 && y % 100 != 0) || y % 400 == 0

/-- Length of month `m` in year `y` (months are 1–12). -/
def daysInMonth (y m : Nat) : Nat :=
  if m = 2 then (if isLeap y then 29 else 28)
  else if m = 4 ∨ m = 6 ∨ m = 9 ∨ m = 11 then 30
  else 31

/-- Number of days before January 1 of year `y` in the proleptic Gregorian
calendar (the `_days_before_year` formula of CPython's `datetime`). -/
def daysBeforeYear (y : Nat) : Nat :=
  let p := y - 1
  p * 365 + p / 4 - p / 100 + p / 400

/-- Number of days in year `y` before the first of month `m`. -/
def daysBeforeMonth (y m : Nat) : Nat :=
  (List.range (m - 1)).foldl (fun acc i => acc + daysInMonth y (i + 1)) 0

/-- Proleptic Gregorian ordinal of a date, with `0001-01-01` ↦ `1`;
the value `datetime.date.toordinal` returns.  Subtracting two ordinals is
the `.days` of the difference of the two dates. -/
def dateOrdinal (y m d : Nat) : Int :=
  ((daysBeforeYear y + daysBeforeMonth y m + d : Nat) : Int)

/-- Numeric value of a decimal digit character. -/
def digitVal (c : Char) : Option Nat :=
  if c.isDigit then some (c.toNat - 48) else none

/-- `datetime.date.fromisoformat` on a `YYYY-MM-DD` string, returning the
date's ordinal; `none` models the `ValueError` raised on malformed input. -/
def parseIsoDate (s : List Char) : Option Int :=
  match s with
  | [c1, c2, c3, c4, s1, c5, c6, s2, c7, c8] =>
    if s1 = '-' ∧ s2 = '-' then
      match digitVal c1, digitVal c2, digitVal c3, digitVal c4,
          digitVal c5, digitVal c6, digitVal c7, digitVal c8 with
      | some a, some b, some c, some d, some e, some f, some g, some h =>
        let y := a * 1000 + b * 100 + c * 10 + d
        let m := e * 10 + f
        let dd := g * 10 + h
        if 1 ≤ y ∧ 1 ≤ m ∧ m ≤ 12 ∧ 1 ≤ dd ∧ dd ≤ daysInMonth y m then
          some (dateOrdinal y m dd)
        else none
      | _, _, _, _, _, _, _, _ => none
    else none
  | _ => none

-- ═══════════════════ core/models.py (data model) ═══════════════════

/-- `core/models.py::Task`.  `priority`/chunk sizes are Python ints;
hour quantities are floats, modelled as exact rationals. -/
structure Task where
  id : List Char := []
  title : List Char := []
  type : List Char := []
  priority : Int := 5
  status : List Char := lit "active"
  remaining_hours : Option ℚ := none
  deadline : Option (List Char) := none
  target_hours_per_week : Option ℚ := none
  hours_this_week : ℚ := 0
  estimated_minutes_per_day : Option Int := none
  min_chunk_minutes : Int := 25
  max_chunk_minutes : Int := 180
  notes : List Char := []
deriving Repr, DecidableEq

/-- `core/models.py::TasksFile`. -/
structure TasksFile where
  week_start : List Char := lit "mon"
  tasks : List Task := []
  archived : List Task := []
deriving Repr, DecidableEq

/-- `core/models.py::CheckinItem`. -/
structure CheckinItem where
  label : List Char := []
  done : Bool := false
  comment : List Char := []
deriving Repr, DecidableEq

/-- `core/models.py::CheckinDraft`; `items` is an insertion-ordered map,
modelled as an association list. -/
structure CheckinDraft where
  day : List Char := []
  updated_at : List Char := []
  mode : List Char := lit "commit"
  items : List (List Char × CheckinItem) := []
  reflection : List Char := []
deriving Repr, DecidableEq

/-- `core/models.py::HistoryEntry`. -/
structure HistoryEntry where
  day : List Char := []
  rating : List Char := []
  mode : List Char := []
  streak_counted : Bool := false
  done_count : Int := 0
  total : Int := 0
deriving Repr, DecidableEq

/-- `core/models.py::State`.  The pass-through mapping
`weeklyBudgetTracking`, which no operation under verification reads or
writes, is omitted. -/
structure State where
  streak : Int := 0
  last_streak_date : Option (List Char) := none
  last_rating : Option (List Char) := none
  last_mode : Option (List Char) := none
  last_summary : Option (List Char) := none
  last_finalized_date : Option (List Char) := none
  history : List HistoryEntry := []
  week_start_date : Option (List Char) := none
deriving Repr, DecidableEq

/-- `core/models.py::FocusSession`.  Timestamps (`startedAt`, `endedAt`)
are minutes since an arbitrary epoch (`ℚ`), the embedding of the ISO
datetime strings the code stores; subtracting two timestamps is the
elapsed time in minutes. -/
structure FocusSession where
  task_id : List Char := []
  task_label : List Char := []
  started_at : ℚ := 0
  planned_minutes : Int := 25
  ended_at : Option ℚ := none
  elapsed_minutes : ℚ := 0
  completed : Bool := false
  interruptions : Int := 0
  notes : List Char := []
deriving Repr, DecidableEq

/-- `core/models.py::FocusState`. -/
structure FocusState where
  active_session : Option FocusSession := none
  history : List FocusSession := []
deriving Repr, DecidableEq

/-- `core/models.py::TimeRange`: minutes after midnight.  The Python
attribute `end` is a Lean keyword and is named `stop` here. -/
structure TimeRange where
  start : Nat
  stop : Nat
deriving Repr, DecidableEq

/-- `TimeRange.duration_minutes`: `max(0, end - start)`; `Nat`
subtraction already truncates at 0. -/
def TimeRange.duration_minutes (t : TimeRange) : Nat :=
  t.stop - t.start

/-- `TimeRange.overlaps`. -/
def TimeRange.overlaps (t o : TimeRange) : Prop :=
  t.start < o.stop ∧ o.start < t.stop

instance (t o : TimeRange) : Decidable (t.overlaps o) := by
  unfold TimeRange.overlaps; infer_instance

/-- `TimeRange.subtract`: remaining pieces after removing `o` from `t`. -/
def TimeRange.subtract (t o : TimeRange) : List TimeRange :=
  if ¬ t.overlaps o then [⟨t.start, t.stop⟩]
  else
    (if t.start < o.start then [TimeRange.mk t.start o.start] else []) ++
    (if o.stop < t.stop then [TimeRange.mk o.stop t.stop] else [])

/-- `core/models.py::WeeklyEvent` (fields the scheduler reads). -/
structure WeeklyEvent where
  name : List Char := []
  day : List Char := []
  time : TimeRange
  location : List Char := []
  commute_min_each_way : Int := 0
deriving Repr, DecidableEq

/-- `core/models.py::Profile` (the fields the scheduler reads;
`fixed_routines` maps a name to its window, the only routine field used). -/
structure Profile where
  work_blocks : List TimeRange := []
  fixed_routines : List (List Char × TimeRange) := []
  weekly_fixed_events : List WeeklyEvent := []
deriving Repr, DecidableEq

/-- `core/models.py::ScheduledBlock` (`start`/`end` are always set by the
generator, so they are plain times here; `end` is named `stop`). -/
structure ScheduledBlock where
  start : Nat
  stop : Nat
  task_id : List Char := []
  task_title : List Char := []
  duration_minutes : Int := 0
  block_type : List Char := lit "task"
deriving Repr, DecidableEq

/-- `core/models.py::DaySchedule`. -/
structure DaySchedule where
  date : List Char := []
  blocks : List ScheduledBlock := []
  unscheduled_tasks : List (List Char) := []
  total_work_minutes : Int := 0
  utilization_pct : ℚ := 0
deriving Repr, DecidableEq

-- ════════════════════ Numeric helpers (Python) ════════════════════

/-- Python `int(x)` on a float/rational: truncation toward zero. -/
def pyInt (q : ℚ) : Int :=
  if 0 ≤ q then ⌊q⌋ else ⌈q⌉

/-- Python `round(x)` to an integer: round half to even (banker's
rounding), on the exact rational model of the float. -/
def pyRoundHalfEven (q : ℚ) : Int :=
  let f := ⌊q⌋
  let r := q - f
  if r < 1 / 2 then f
  else if 1 / 2 < r then f + 1
  else if f % 2 = 0 then f else f + 1

/-- Python `round(x, 1)`. -/
def pyRound1 (q : ℚ) : ℚ :=
  (pyRoundHalfEven (q * 10) : ℚ) / 10

/-- Python `round(x, 2)`. -/
def pyRound2 (q : ℚ) : ℚ :=
  (pyRoundHalfEven (q * 100) : ℚ) / 100

/-- Decimal digits of `n`, most significant first (fuel-based so that the
kernel can evaluate it). -/
def natToCharsAux : Nat → Nat → List Char
  | 0, _ => []
  | fuel + 1, n =>
    if n = 0 then []
    else natToCharsAux fuel (n / 10) ++ [Char.ofNat (48 + n % 10)]

/-- Python `str(n)` for a non-negative int. -/
def natToChars (n : Nat) : List Char :=
  if n = 0 then lit "0" else natToCharsAux (n + 1) n

/-- Python `str(i)` for an int. -/
def intToChars (i : Int) : List Char :=
  if i < 0 then '-' :: natToChars i.natAbs else natToChars i.toNat

/-- Python `str.upper()` (ASCII). -/
def pyUpper (s : List Char) : List Char := s.map Char.toUpper

/-- Python `str.lower()` (ASCII). -/
def pyLower (s : List Char) : List Char := s.map Char.toLower

/-- Value of a list of decimal digit characters, most significant first. -/
def digitsToNat (l : List Char) : Nat :=
  l.foldl (fun a c => a * 10 + (c.toNat - 48)) 0

/-- Index of the first occurrence of `pat` in a list (Python `str.find`),
or `none`. -/
def findSub (pat : List Char) : List Char → Option Nat
  | [] => if pat.isPrefixOf ([] : List Char) then some 0 else none
  | c :: rest =>
    if pat.isPrefixOf (c :: rest) then some 0
    else (findSub pat rest).map (· + 1)

-- ═══════════════════════ core/checkbox.py ═══════════════════════

/-- `core/checkbox.py::parse_duration_from_label`: extract a trailing
duration suffix `<n>h`/`<n>m`/`<n.n>h` (case-insensitive, regex
`(\d+(?:\.\d+)?)\s*([hm])\s*$`) and return minutes, truncated to int;
0 when absent.  The float value of the number is modelled exactly. -/
def parse_duration_from_label (label : List Char) : Int :=
  match label.reverse.dropWhile isPySpace with
  | u :: rest =>
    if u.toLower = 'h' ∨ u.toLower = 'm' then
      let rest1 := rest.dropWhile isPySpace
      let p := rest1.span Char.isDigit
      if p.1 = [] then 0
      else
        -- in reversed order a number `int.frac` reads `frac ++ "." ++ int`
        let ifp : List Char × List Char :=
          match p.2 with
          | '.' :: r4 =>
            let q := r4.span Char.isDigit
            if q.1 = [] then (p.1, []) else (q.1, p.1)
          | _ => (p.1, [])
        let v : ℚ := (digitsToNat ifp.1.reverse : ℚ) +
          (digitsToNat ifp.2.reverse : ℚ) / (10 ^ ifp.2.length : ℚ)
        if u.toLower = 'h' then pyInt (v * 60) else pyInt v
    else 0
  | [] => 0

/-- `core/checkbox.py::parse_task_title_from_label`: strip a trailing
duration (regex `\s+\d+(?:\.\d+)?\s*[hm]\s*$`), trim, and keep only the
part before the first colon when one is present. -/
def parse_task_title_from_label (label : List Char) : List Char :=
  let cleaned :=
    match label.reverse.dropWhile isPySpace with
    | u :: rest =>
      if u.toLower = 'h' ∨ u.toLower = 'm' then
        let rest1 := rest.dropWhile isPySpace
        let p := rest1.span Char.isDigit
        if p.1 = [] then label
        else
          let rest3 :=
            match p.2 with
            | '.' :: r4 =>
              let q := r4.span Char.isDigit
              if q.1 = [] then p.2 else q.2
            | _ => p.2
          -- the regex requires at least one whitespace char before the number
          match rest3 with
          | w :: _ =>
            if isPySpace w then (rest3.dropWhile isPySpace).reverse else label
          | [] => label
      else label
    | [] => label
  let cleaned := pyStrip cleaned
  if ':' ∈ cleaned then pyStrip (cleaned.takeWhile (· ≠ ':'))
  else cleaned

-- ═══════════════════════ core/rating.py ═══════════════════════

/-- `core/rating.py::compute_rating`: rate the day `good`, `fair` or `bad`
from the number of done items, the total number of items, the reflection
text and whether any timed item was done. -/
def compute_rating (done_count total_items : Nat) (reflection : List Char)
    (any_time : Bool) : List Char :=
  if done_count ≥ max 1 (total_items / 2) ∨ done_count ≥ 2 ∨
      (any_time = true ∧ done_count ≥ 1) then
    lit "good"
  else if done_count ≥ 1 ∨ (pyStrip reflection).length ≥ 30 then
    lit "fair"
  else
    lit "bad"

/-- `core/rating.py::counts_for_streak`: a day counts toward the streak if
at least one item is done, the trimmed reflection is long enough, or the
plan was changed. -/
def counts_for_streak (done_count : Nat) (reflection : List Char)
    (plan_changed : Bool) : Bool :=
  decide (done_count ≥ 1) || decide ((pyStrip reflection).length ≥ 30) ||
    plan_changed

/-- `core/rating.py::summarize_paragraph`: one-line auto-summary. -/
def summarize_paragraph (day rating : List Char) (done_items : List (List Char))
    (minutes_total : Int) (reflection : List Char) : List Char :=
  let lead :=
    if rating = lit "good" then lit "Good"
    else if rating = lit "fair" then lit "Fair"
    else if rating = lit "bad" then lit "Bad"
    else lit "Unknown"
  let parts : List (List Char) :=
    (if done_items ≠ [] then
      [lit "done: " ++ List.intercalate (lit ", ") (done_items.take 3) ++
        (if done_items.length ≤ 3 then []
         else lit " (+" ++ natToChars (done_items.length - 3) ++ lit " more)")]
     else []) ++
    (if 0 < minutes_total then
      [lit "logged ~" ++ intToChars minutes_total ++ lit " min"] else []) ++
    (if pyStrip reflection ≠ [] then [lit "reflection recorded"] else [])
  let body :=
    if parts ≠ [] then List.intercalate (lit "; ") parts
    else lit "no notable progress logged"
  let advice :=
    if rating = lit "good" then
      lit "Keep the momentum; protect one deep block early tomorrow."
    else if rating = lit "fair" then
      lit "Aim for one deeper block next; reduce context switching."
    else if rating = lit "bad" then
      lit "Reset: pick one small win + one deep block tomorrow."
    else []
  lit "[" ++ lead ++ lit "] " ++ day ++ lit ": " ++ body ++ lit ". " ++ advice

-- ═══════════════════ core/reflections.py ═══════════════════

/-- The `---\n\n` separator between the header and the entries of
`reflections.md`. -/
def reflMarker : List Char := lit "---\n\n"

/-- The default header written when `reflections.md` is blank. -/
def reflHeader : List Char :=
  lit "# Reflections (rolling)\n\nAppend newest entries at the top.\n\n---\n\n"

/-- `core/reflections.py::prepend_reflection` as a pure function from the
current content of `reflections.md` and the entry to the new content. -/
def prepend_reflection (ref_content entry_md : List Char) : List Char :=
  let existing := if pyStrip ref_content = [] then reflHeader else ref_content
  match findSub reflMarker existing with
  | some idx =>
    let head := existing.take (idx + reflMarker.length)
    let tail := existing.drop (idx + reflMarker.length)
    head ++ ['\n'] ++ pyStrip entry_md ++ lit "\n\n" ++ pyLStrip tail
  | none => pyStrip entry_md ++ lit "\n\n" ++ existing

/-- `core/reflections.py::build_reflection_entry`.  In the raw draft the
`label`/`comment` keys are always present (the draft writer emits them),
so `items` carries them directly. -/
def build_reflection_entry (today now_iso rating mode : List Char)
    (done_items : List (List Char)) (items : List (List Char × CheckinItem))
    (reflection summary : List Char) : List Char :=
  let headLines : List (List Char) :=
    [lit "## " ++ today,
     lit "- Time: " ++ now_iso,
     [],
     lit "**Rating:** " ++ pyUpper rating,
     [],
     lit "**Mode:** " ++ pyUpper mode,
     [],
     lit "**Done**"]
  let doneLines :=
    if done_items ≠ [] then done_items.map (fun it => lit "- " ++ it)
    else [lit "- (none)"]
  let noteLines := items.filterMap fun kv =>
    if pyStrip kv.2.comment ≠ [] then
      some (lit "- " ++ kv.2.label ++ lit ": " ++ pyStrip kv.2.comment)
    else none
  let noteLines := if noteLines ≠ [] then noteLines else [lit "- (none)"]
  let reflLine := if pyStrip reflection ≠ [] then pyStrip reflection
    else lit "- (none)"
  joinNl
    (headLines ++ doneLines ++ [[], lit "**Notes**"] ++ noteLines ++
      [[], lit "**Reflection**", reflLine, [], lit "**Auto-summary**",
       lit "- " ++ summary])

-- ═══════════════════ core/tasks.py — dict level ═══════════════════

/-- A JSON/YAML-ish Python value, as far as the task store manipulates
them.  Python `bool` is a subclass of `int`, which matters for the
`isinstance` checks below. -/
inductive AnyVal where
  | vStr (s : List Char)
  | vInt (i : Int)
  | vFloat (q : ℚ)
  | vBool (b : Bool)
  | vNone
deriving Repr, DecidableEq

/-- An insertion-ordered Python dict with string keys. -/
abbrev Dict := List (List Char × AnyVal)

/-- `d.get(k)` / `d[k]`. -/
def dictGet (d : Dict) (k : List Char) : Option AnyVal :=
  (d.find? (fun kv => kv.1 == k)).map (·.2)

/-- `d[k] = v`: overwrite in place, or append a new key. -/
def dictSet (d : Dict) (k : List Char) (v : AnyVal) : Dict :=
  if (dictGet d k).isSome then
    d.map (fun kv => if kv.1 == k then (kv.1, v) else kv)
  else d ++ [(k, v)]

/-- Python `d.update(u)`. -/
def dictUpdate (d u : Dict) : Dict :=
  u.foldl (fun acc kv => dictSet acc kv.1 kv.2) d

/-- `isinstance(v, (int, float))` — true for bools, ints and floats. -/
def isNumeric : AnyVal → Bool
  | .vInt _ => true
  | .vFloat _ => true
  | .vBool _ => true
  | _ => false

/-- `isinstance(v, int)` — true for bools and ints. -/
def isPyIntInst : AnyVal → Bool
  | .vInt _ => true
  | .vBool _ => true
  | _ => false

/-- Numeric value of an int-like value (`True == 1`, `False == 0`). -/
def intValOf : AnyVal → Int
  | .vInt i => i
  | .vBool b => if b then 1 else 0
  | _ => 0

/-- A decimal rendering of a rational; stands in for CPython's float repr
in error-message interpolation (no claim inspects these characters). -/
def ratToChars (q : ℚ) : List Char :=
  intToChars q.num ++ (if q.den ≠ 1 then '/' :: natToChars q.den else [])

/-- Python `str(v)`. -/
def pyStrOf : AnyVal → List Char
  | .vStr s => s
  | .vInt i => intToChars i
  | .vFloat q => ratToChars q
  | .vBool b => if b then lit "True" else lit "False"
  | .vNone => lit "None"

/-- `int(v)`: `none` models the `TypeError`/`ValueError` Python raises. -/
def pyToIntOpt : AnyVal → Option Int
  | .vInt i => some i
  | .vBool b => some (if b then 1 else 0)
  | .vFloat q => some (pyInt q)
  | .vStr s =>
    let s := pyStrip s
    let core := match s with
      | '-' :: rest => rest
      | '+' :: rest => rest
      | l => l
    if core ≠ [] ∧ core.all Char.isDigit then
      some (if s.head? = some '-' then -(digitsToNat core : Int) else (digitsToNat core : Int))
    else none
  | .vNone => none

/-- `float(v)` for int-like values; string parsing is restricted to
integer literals (the only forms the store round-trips). -/
def pyToFloatOpt : AnyVal → Option ℚ
  | .vFloat q => some q
  | .vInt i => some (i : ℚ)
  | .vBool b => some (if b then 1 else 0)
  | .vStr s => (pyToIntOpt (.vStr s)).map (fun i => (i : ℚ))
  | .vNone => none

/-- `core/tasks.py::VALID_TYPES`. -/
def VALID_TYPES : List (List Char) :=
  [lit "deadline_project", lit "weekly_budget", lit "daily_ritual", lit "open_ended"]

/-- `core/tasks.py::VALID_STATUSES`. -/
def VALID_STATUSES : List (List Char) :=
  [lit "active", lit "paused", lit "complete"]

/-- Python `v in {set of strings}` — false for non-string values. -/
def valueInStrs (v : AnyVal) (l : List (List Char)) : Bool :=
  match v with
  | .vStr s => l.contains s
  | _ => false

/-- `core/tasks.py::validate_task`: schema validation returning the list
of error messages (empty when valid). -/
def validate_task (task : Dict) : List (List Char) :=
  (if (dictGet task (lit "id")).isNone then
    [lit "Missing required field: id"] else []) ++
  (if (dictGet task (lit "title")).isNone then
    [lit "Missing required field: title"] else []) ++
  (match dictGet task (lit "type") with
   | none => [lit "Missing required field: type"]
   | some t =>
     if valueInStrs t VALID_TYPES then []
     else [lit "Invalid task type: " ++ pyStrOf t]) ++
  (if dictGet task (lit "type") == some (.vStr (lit "deadline_project")) then
    (match dictGet task (lit "remaining_hours") with
     | some v => if isNumeric v then [] else [lit "remaining_hours must be numeric"]
     | none => [])
   else if dictGet task (lit "type") == some (.vStr (lit "weekly_budget")) then
    (match dictGet task (lit "target_hours_per_week") with
     | some v =>
       if isNumeric v then [] else [lit "target_hours_per_week must be numeric"]
     | none => [])
   else []) ++
  (match dictGet task (lit "status") with
   | some s =>
     if valueInStrs s VALID_STATUSES then []
     else [lit "Invalid status: " ++ pyStrOf s]
   | none => []) ++
  (match dictGet task (lit "priority") with
   | some p =>
     if isPyIntInst p ∧ 1 ≤ intValOf p ∧ intValOf p ≤ 10 then []
     else [lit "priority must be integer 1-10"]
   | none => [])

/-- `core/models.py::Task.from_dict`; `none` models an uncaught coercion
exception.  Raw-passthrough fields (`remaining_hours`, `deadline`,
`target_hours_per_week`, `estimated_minutes_per_day`) holding values of
the wrong runtime type are modelled as absent. -/
def Task.from_dict (d : Dict) : Option Task := do
  let priority ← pyToIntOpt ((dictGet d (lit "priority")).getD (.vInt 5))
  let hours ← pyToFloatOpt ((dictGet d (lit "hours_this_week")).getD (.vFloat 0))
  let minc ← pyToIntOpt ((dictGet d (lit "min_chunk_minutes")).getD (.vInt 25))
  let maxc ← pyToIntOpt ((dictGet d (lit "max_chunk_minutes")).getD (.vInt 180))
  some
    { id := pyStrOf ((dictGet d (lit "id")).getD (.vStr []))
      title := pyStrOf ((dictGet d (lit "title")).getD (.vStr []))
      type := pyStrOf ((dictGet d (lit "type")).getD (.vStr []))
      priority := priority
      status := pyStrOf ((dictGet d (lit "status")).getD (.vStr (lit "active")))
      remaining_hours := (dictGet d (lit "remaining_hours")).bind pyToFloatOpt
      deadline := (dictGet d (lit "deadline")).bind fun v =>
        match v with | .vStr s => some s | _ => none
      target_hours_per_week := (dictGet d (lit "target_hours_per_week")).bind pyToFloatOpt
      hours_this_week := hours
      estimated_minutes_per_day := (dictGet d (lit "estimated_minutes_per_day")).bind pyToIntOpt
      min_chunk_minutes := minc
      max_chunk_minutes := maxc
      notes := pyStrOf ((dictGet d (lit "notes")).getD (.vStr [])) }

/-- `core/models.py::Task.to_dict`. -/
def Task.to_dict (t : Task) : Dict :=
  [(lit "id", .vStr t.id), (lit "title", .vStr t.title),
   (lit "type", .vStr t.type), (lit "priority", .vInt t.priority),
   (lit "status", .vStr t.status)] ++
  (if t.type = lit "deadline_project" then
    (match t.remaining_hours with
     | some r => [(lit "remaining_hours", AnyVal.vFloat r)]
     | none => []) ++
    (match t.deadline with
     | some dl => if dl ≠ [] then [(lit "deadline", AnyVal.vStr dl)] else []
     | none => [])
   else []) ++
  (if t.type = lit "weekly_budget" then
    (match t.target_hours_per_week with
     | some v => [(lit "target_hours_per_week", AnyVal.vFloat v)]
     | none => []) ++
    [(lit "hours_this_week", AnyVal.vFloat t.hours_this_week)]
   else []) ++
  (if t.type = lit "daily_ritual" then
    (match t.estimated_minutes_per_day with
     | some e => [(lit "estimated_minutes_per_day", AnyVal.vInt e)]
     | none => [])
   else []) ++
  (if t.min_chunk_minutes ≠ 25 then
    [(lit "min_chunk_minutes", AnyVal.vInt t.min_chunk_minutes)] else []) ++
  (if t.max_chunk_minutes ≠ 180 then
    [(lit "max_chunk_minutes", AnyVal.vInt t.max_chunk_minutes)] else []) ++
  (if t.notes ≠ [] then [(lit "notes", AnyVal.vStr t.notes)] else [])

/-- `core/tasks.py::find_task`. -/
def find_task (tf : TasksFile) (task_id : List Char) : Option Task :=
  tf.tasks.find? (fun t => t.id == task_id)

/-- Python `==` between a task id (a str) and an arbitrary value. -/
def idEqVal (s : List Char) (v : AnyVal) : Bool :=
  match v with
  | .vStr t => s == t
  | _ => false

/-- `core/tasks.py::create_task`.  The mutated file is returned
alongside `(task, errors)`; `Except.error` models an uncaught exception
from a field coercion (after which no mutation has happened either). -/
def create_task (tf : TasksFile) (task_data : Dict) :
    Except (List Char) ((Task × List (List Char)) × TasksFile) :=
  let errors := validate_task task_data
  if errors ≠ [] then .ok (({}, errors), tf)
  else
    let idv := (dictGet task_data (lit "id")).getD .vNone
    if (tf.tasks.find? (fun t => idEqVal t.id idv)).isSome then
      .ok (({}, [lit "Task ID already exists: " ++ pyStrOf idv]), tf)
    else
      match Task.from_dict task_data with
      | some task => .ok ((task, []), { tf with tasks := tf.tasks ++ [task] })
      | none => .error (lit "TypeError")

/-- The in-place replacement loop of `core/tasks.py::update_task`
(`tasks[i] = updated` at the first index whose id matches, then break). -/
def replaceFirstById (l : List Task) (task_id : List Char) (updated : Task) :
    List Task :=
  match l with
  | [] => []
  | t :: rest =>
    if t.id == task_id then updated :: rest
    else t :: replaceFirstById rest task_id updated

/-- `core/tasks.py::update_task`. -/
def update_task (tf : TasksFile) (task_id : List Char) (updates : Dict) :
    Except (List Char) ((Option Task × List (List Char)) × TasksFile) :=
  match find_task tf task_id with
  | none => .ok ((none, [lit "Task not found: " ++ task_id]), tf)
  | some task =>
    let merged := dictUpdate task.to_dict updates
    let errors := validate_task merged
    if errors ≠ [] then .ok ((none, errors), tf)
    else
      match Task.from_dict merged with
      | some updated =>
        .ok ((some updated, []),
          { tf with tasks := replaceFirstById tf.tasks task_id updated })
      | none => .error (lit "TypeError")

-- ═══════════ core/tasks.py — lifecycle & progress ═══════════

/-- Index-returning form of `core/tasks.py::match_task_from_label` (the
Python function returns an aliased object; the index identifies which
list element it would mutate). -/
def matchTaskIdxFromLabel (label : List Char) (tasks : List Task) : Option Nat :=
  let tp := parse_task_title_from_label label
  if tp = [] then none
  else
    let pl := pyLower tp
    match tasks.findIdx? (fun t => pyLower t.title == pl) with
    | some i => some i
    | none =>
      tasks.findIdx? (fun t =>
        pl.isPrefixOf (pyLower t.title) || (pyLower t.title).isPrefixOf pl)

/-- `core/tasks.py::match_task_from_label`. -/
def match_task_from_label (label : List Char) (tasks : List Task) : Option Task :=
  (matchTaskIdxFromLabel label tasks).bind tasks.get?

/-- `core/tasks.py::update_task_progress` (pure form: returns the
updated task). -/
def update_task_progress (task : Task) (minutes_done : Int) : Task :=
  if task.type = lit "deadline_project" ∧ task.remaining_hours.isSome then
    match task.remaining_hours with
    | some r =>
      if max 0 (r - (minutes_done : ℚ) / 60) ≤ 0 then
        { task with remaining_hours := some (max 0 (r - (minutes_done : ℚ) / 60)),
                    status := lit "complete" }
      else { task with remaining_hours := some (max 0 (r - (minutes_done : ℚ) / 60)) }
    | none => task
  else if task.type = lit "weekly_budget" then
    { task with hours_this_week := task.hours_this_week + (minutes_done : ℚ) / 60 }
  else task

/-- `core/tasks.py::process_checkin_progress`: walk the draft's done
items, update matched tasks in place, return the update descriptions. -/
def process_checkin_progress (draft : CheckinDraft) (tf : TasksFile) :
    List (List Char) × TasksFile :=
  draft.items.foldl
    (fun acc kv =>
      let item := kv.2
      if item.done then
        match matchTaskIdxFromLabel item.label acc.2.tasks with
        | none => acc
        | some i =>
          let task := (acc.2.tasks.get? i).getD {}
          let minutes0 := parse_duration_from_label item.label
          let minutes :=
            if minutes0 ≤ 0 then
              match task.estimated_minutes_per_day with
              | some e => if task.type = lit "daily_ritual" ∧ e ≠ 0 then e else 30
              | none => 30
            else minutes0
          let updated := update_task_progress task minutes
          (acc.1 ++ [task.id ++ lit ": +" ++ intToChars minutes ++ lit "min"],
           { acc.2 with tasks := acc.2.tasks.set i updated })
      else acc)
    ([], tf)

/-- Weekday index of a date ordinal (`date.weekday()`: Monday = 0;
ordinal 1 is a Monday). -/
def weekdayOfOrdinal (o : Int) : Nat := ((o + 6) % 7).toNat

/-- Year and day-of-year from a day count (fuel-based year scan). -/
def ordToYearAux : Nat → Nat → Nat → Nat × Nat
  | 0, y, n => (y, n)
  | fuel + 1, y, n =>
    let len := if isLeap y then 366 else 365
    if n ≤ len then (y, n) else ordToYearAux fuel (y + 1) (n - len)

/-- Month and day-of-month from a day-of-year. -/
def ordToMonthAux (y : Nat) : Nat → Nat → Nat → Nat × Nat
  | 0, m, n => (m, n)
  | fuel + 1, m, n =>
    let len := daysInMonth y m
    if n ≤ len then (m, n) else ordToMonthAux y fuel (m + 1) (n - len)

/-- `date.fromordinal`. -/
def ordinalToYMD (o : Int) : Nat × Nat × Nat :=
  let p := ordToYearAux 10000 1 o.toNat
  let q := ordToMonthAux p.1 12 1 p.2
  (p.1, q.1, q.2)

/-- Left-pad a number to two digits. -/
def pad2 (n : Nat) : List Char :=
  if n < 10 then '0' :: natToChars n else natToChars n

/-- Left-pad a year to four digits. -/
def pad4 (n : Nat) : List Char :=
  if n < 10 then lit "000" ++ natToChars n
  else if n < 100 then lit "00" ++ natToChars n
  else if n < 1000 then lit "0" ++ natToChars n
  else natToChars n

/-- `date.isoformat` of an ordinal. -/
def dateToIso (o : Int) : List Char :=
  let ymd := ordinalToYMD o
  pad4 ymd.1 ++ lit "-" ++ pad2 ymd.2.1 ++ lit "-" ++ pad2 ymd.2.2

/-- `DAY_MAP.get(week_start, 0)` of `core/tasks.py::reset_weekly_budgets`. -/
def dayNumOf (s : List Char) : Nat :=
  if s = lit "mon" then 0 else if s = lit "tue" then 1
  else if s = lit "wed" then 2 else if s = lit "thu" then 3
  else if s = lit "fri" then 4 else if s = lit "sat" then 5
  else if s = lit "sun" then 6 else 0

/-- `core/tasks.py::reset_weekly_budgets`: returns
`(reset_performed, tasks_file, state)`. -/
def reset_weekly_budgets (tf : TasksFile) (state : State) (today : List Char) :
    Bool × TasksFile × State :=
  let week_start_day : Nat := dayNumOf (pyLower tf.week_start)
  match parseIsoDate today with
  | none => (false, tf, state)
  | some today_ord =>
    let current_weekday := weekdayOfOrdinal today_ord
    let skip : Bool :=
      match state.week_start_date with
      | some wsd =>
        match parseIsoDate wsd with
        | some last_start => decide (today_ord - last_start < 7)
        | none => false
      | none => false
    if skip then (false, tf, state)
    else if current_weekday = week_start_day then
      (true,
       { tf with tasks := tf.tasks.map fun t =>
          if t.type = lit "weekly_budget" then { t with hours_this_week := 0 } else t },
       { state with week_start_date := some today })
    else if state.week_start_date = none then
      let days_since : Int :=
        ((current_weekday : Int) - (week_start_day : Int)) % 7
      (false, tf, { state with week_start_date := some (dateToIso (today_ord - days_since)) })
    else (false, tf, state)

/-- `core/tasks.py::archive_completed_tasks`. -/
def archive_completed_tasks (tf : TasksFile) : List (List Char) × TasksFile :=
  let completed := tf.tasks.filter (fun t => t.status == lit "complete")
  let remaining := tf.tasks.filter (fun t => !(t.status == lit "complete"))
  (completed.map (·.id),
   { tf with tasks := remaining, archived := tf.archived ++ completed })

/-- Python truthiness of an optional float: set and nonzero. -/
def optRatTruthy : Option ℚ → Bool
  | some v => v != 0
  | none => false

/-- One row of `core/tasks.py::get_tasks_with_computed_fields` — the
task's serialized fields plus the computed ones. -/
structure ComputedTask where
  task : Task
  days_until_deadline : Option Int := none
  weekly_progress_pct : Option ℚ := none
  urgency_score : ℚ := 0
deriving Repr, DecidableEq

/-- `core/tasks.py::get_tasks_with_computed_fields`.  `sysToday` is the
ordinal `date.today()` would supply on the (dead in practice) branch
where `today` fails to parse. -/
def get_tasks_with_computed_fields (tf : TasksFile) (today : List Char)
    (sysToday : Int) : List ComputedTask :=
  let today_ord := (parseIsoDate today).getD sysToday
  let rows := tf.tasks.map fun task =>
    let base : ℚ := (task.priority : ℚ)
    let du_urg : Option Int × ℚ :=
      if task.type = lit "deadline_project" ∧ task.deadline.getD [] ≠ [] then
        match parseIsoDate (task.deadline.getD []) with
        | some dl =>
          let days_left : Int := max 1 (dl - today_ord)
          (some days_left,
           match task.remaining_hours with
           | some rh => if 0 < rh then base + rh / (days_left : ℚ) * 5 else base
           | none => base)
        | none => (none, base)
      else (none, base)
    let wp_urg : Option ℚ × ℚ :=
      if task.type = lit "weekly_budget" ∧ optRatTruthy task.target_hours_per_week then
        let target := task.target_hours_per_week.getD 1
        let gap := max 0 (target - task.hours_this_week)
        (some (pyRound1 (task.hours_this_week / target * 100)),
         du_urg.2 + gap / target * 3)
      else (none, du_urg.2)
    { task := task, days_until_deadline := du_urg.1,
      weekly_progress_pct := wp_urg.1, urgency_score := pyRound2 wp_urg.2 }
  pySort (fun a b => decide (b.urgency_score ≤ a.urgency_score)) rows

-- ═══════════ core/scheduler.py — priority scoring ═══════════

/-- `core/scheduler.py::compute_task_priority_score` (the `state` and
`analytics` parameters are accepted and ignored by the source). -/
def compute_task_priority_score (task : Task) (today_ord : Int) : ℚ :=
  let score : ℚ := (task.priority : ℚ)
  let score :=
    if task.type = lit "deadline_project" ∧ task.deadline.getD [] ≠ [] then
      match parseIsoDate (task.deadline.getD []) with
      | some dl =>
        let days_left : Int := max 1 (dl - today_ord)
        match task.remaining_hours with
        | some rh => if 0 < rh then score + rh / (days_left : ℚ) * 5 else score
        | none => score
      | none => score
    else if task.type = lit "deadline_project" ∧ task.remaining_hours.isSome then
      if 0 < task.remaining_hours.getD 0 then score + 2 else score
    else score
  let score :=
    if task.type = lit "weekly_budget" ∧ optRatTruthy task.target_hours_per_week then
      let target := task.target_hours_per_week.getD 1
      let gap := max 0 (target - task.hours_this_week)
      if 0 < target then score + gap / target * 3 else score
    else score
  if task.type = lit "daily_ritual" then score + 1 else score

-- ═══════════════ core/scheduler.py — slots & schedule ═══════════════

/-- `core/scheduler.py::DAY_NAMES`. -/
def DAY_NAMES : List (List Char) :=
  [lit "mon", lit "tue", lit "wed", lit "thu", lit "fri", lit "sat", lit "sun"]

/-- `DAY_NAMES[target_date.weekday()]`. -/
def weekdayName (o : Int) : List Char :=
  DAY_NAMES.getD (weekdayOfOrdinal o) (lit "mon")

/-- `core/scheduler.py::_time_add_minutes`: add minutes to a clock time,
clamping into `[00:00, 23:59]`. -/
def time_add_minutes (t : Nat) (m : Int) : Nat :=
  (max 0 (min ((t : Int) + m) (23 * 60 + 59))).toNat

/-- `core/scheduler.py::compute_available_slots`: work blocks minus fixed
routines and this weekday's events (with commute buffers), dropping
pieces shorter than 10 minutes, sorted by start time. -/
def compute_available_slots (profile : Profile) (target_ord : Int) :
    List TimeRange :=
  let weekday := weekdayName target_ord
  let slots := profile.work_blocks.map (fun b => TimeRange.mk b.start b.stop)
  let blocked : List TimeRange :=
    profile.fixed_routines.map (·.2) ++
    profile.weekly_fixed_events.filterMap (fun event =>
      if pyLower event.day == weekday then
        some (TimeRange.mk (time_add_minutes event.time.start (-event.commute_min_each_way))
          (time_add_minutes event.time.stop event.commute_min_each_way))
      else none)
  let slots := blocked.foldl (fun acc block => acc.flatMap (fun slot => slot.subtract block)) slots
  let slots := slots.filter (fun s => 10 ≤ s.duration_minutes)
  pySort (fun a b => decide (a.start ≤ b.start)) slots

/-- `str.title()` (ASCII): capitalize letters that follow non-letters. -/
def pyTitleAux : Bool → List Char → List Char
  | _, [] => []
  | prevAlpha, c :: rest =>
    (if c.isAlpha then (if prevAlpha then c.toLower else c.toUpper) else c) ::
      pyTitleAux c.isAlpha rest

/-- Python `str.title()`. -/
def pyTitle (s : List Char) : List Char := pyTitleAux false s

/-- `name.replace("_", " ")`. -/
def replaceUnderscores (s : List Char) : List Char :=
  s.map (fun c => if c = '_' then ' ' else c)

/-- `name.lower().replace(" ", "-")`. -/
def slugify (s : List Char) : List Char :=
  (pyLower s).map (fun c => if c = ' ' then '-' else c)

/-- Step 3 of `core/scheduler.py::generate_schedule`: score the active
tasks, sort descending (stable), and compute each task's daily demand in
minutes, keeping tasks with positive demand. -/
def taskNeeds (tasks_file : TasksFile) (target_ord : Int) :
    List (ℚ × Task × Int) :=
  let active := tasks_file.tasks.filter (fun t => t.status == lit "active")
  let scored := active.map (fun t => (compute_task_priority_score t target_ord, t))
  let scored := pySort (fun a b => decide (b.1 ≤ a.1)) scored
  scored.filterMap fun st =>
    let task := st.2
    let needed : Int :=
      if task.type = lit "daily_ritual" then
        match task.estimated_minutes_per_day with
        | some e => if e ≠ 0 then e else 15
        | none => 15
      else if task.type = lit "deadline_project" then task.max_chunk_minutes
      else if task.type = lit "weekly_budget" then
        match task.target_hours_per_week with
        | some tgt =>
          if tgt ≠ 0 then
            let remaining_hours := max 0 (tgt - task.hours_this_week)
            max (min task.max_chunk_minutes (pyInt (remaining_hours * 60 / 3)))
              task.min_chunk_minutes
          else task.min_chunk_minutes
        | none => task.min_chunk_minutes
      else task.min_chunk_minutes
    if 0 < needed then some (st.1, task, needed) else none

/-- Result of walking all slots for one task. -/
structure AllocResult where
  cursors : List (Nat × Nat)
  blocks : List ScheduledBlock
  allocated : Bool
  remaining : Int
deriving Repr, DecidableEq

/-- The inner slot walk of `generate_schedule` for one task: place chunks
of `min(remaining, available, max_chunk)` (only when `≥ min_chunk`),
advancing each used cursor by the chunk plus the 5-minute buffer. -/
def allocWalk (task : Task) (remaining : Int) :
    List (Nat × Nat) → AllocResult
  | [] => ⟨[], [], false, remaining⟩
  | (cs, se) :: rest =>
    if remaining ≤ 0 then ⟨(cs, se) :: rest, [], false, remaining⟩
    else
      let available : Int := (se : Int) - (cs : Int)
      if available < task.min_chunk_minutes then
        let r := allocWalk task remaining rest
        ⟨(cs, se) :: r.cursors, r.blocks, r.allocated, r.remaining⟩
      else
        let chunk := min (min remaining available) task.max_chunk_minutes
        if chunk < task.min_chunk_minutes then
          let r := allocWalk task remaining rest
          ⟨(cs, se) :: r.cursors, r.blocks, r.allocated, r.remaining⟩
        else
          let block_end := time_add_minutes cs chunk
          let r := allocWalk task (remaining - chunk) rest
          ⟨(time_add_minutes block_end 5, se) :: r.cursors,
           ScheduledBlock.mk cs block_end task.id task.title chunk (lit "task") :: r.blocks,
           true, r.remaining⟩

/-- The outer greedy loop of `generate_schedule`: thread the slot cursors
through the demand list, collecting blocks and the ids of tasks that got
nothing (`if not allocated`). -/
def allocAll : List (ℚ × Task × Int) → List (Nat × Nat) →
    List ScheduledBlock × List (List Char)
  | [], _ => ([], [])
  | (_, task, needed) :: rest, cursors =>
    let r := allocWalk task needed cursors
    let tail := allocAll rest r.cursors
    (r.blocks ++ tail.1, (if r.allocated then [] else [task.id]) ++ tail.2)

/-- `core/scheduler.py::generate_schedule`. -/
def generate_schedule (profile : Profile) (tasks_file : TasksFile)
    (target_ord : Int) : DaySchedule :=
  let slots := compute_available_slots profile target_ord
  let total_available : Int := slots.foldl (fun a s => a + (s.duration_minutes : Int)) 0
  let needs := taskNeeds tasks_file target_ord
  let ar := allocAll needs (slots.map (fun s => (s.start, s.stop)))
  let blocks := ar.1
  let routine_blocks : List ScheduledBlock :=
    profile.fixed_routines.map (fun nr =>
      ScheduledBlock.mk nr.2.start nr.2.stop nr.1 (pyTitle (replaceUnderscores nr.1))
        (nr.2.duration_minutes : Int) (lit "routine")) ++
    profile.weekly_fixed_events.filterMap (fun event =>
      if pyLower event.day == weekdayName target_ord then
        some (ScheduledBlock.mk event.time.start event.time.stop
          (slugify event.name) event.name (event.time.duration_minutes : Int) (lit "event"))
      else none)
  let all_blocks := pySort (fun a b => decide (a.start ≤ b.start)) (blocks ++ routine_blocks)
  let total_work : Int := blocks.foldl (fun a b => a + b.duration_minutes) 0
  { date := dateToIso target_ord
    blocks := all_blocks
    unscheduled_tasks := ar.2
    total_work_minutes := total_work
    utilization_pct :=
      if 0 < total_available then (total_work : ℚ) / (total_available : ℚ) * 100 else 0 }

-- ═══════════════════════ core/focus.py ═══════════════════════

/-- The files `stop_session` touches. -/
structure FocusFiles where
  focus : FocusState
  tasksFile : TasksFile
deriving Repr, DecidableEq

/-- `core/focus.py::stop_session`: end the active session, compute
`elapsed_minutes = round(now - started_at, 1)`, move it to history, then
best-effort apply `update_task_progress(task, int(elapsed_minutes))` to
the task found by `taskId` (silently skipping when absent).  `now` is the
current timestamp in minutes.  `Except.error` models the `ValueError`
raised when no session is active. -/
def stop_session (files : FocusFiles) (completed : Bool) (notes : List Char)
    (now : ℚ) : Except (List Char) (FocusSession × FocusFiles) :=
  match files.focus.active_session with
  | none => .error (lit "No active focus session to stop.")
  | some session0 =>
    let session : FocusSession :=
      { session0 with
        ended_at := some now
        completed := completed
        notes := notes
        elapsed_minutes := pyRound1 (now - session0.started_at) }
    let focus' : FocusState :=
      { active_session := none, history := files.focus.history ++ [session] }
    let tf := files.tasksFile
    let tf' :=
      if 0 < session.elapsed_minutes then
        match tf.tasks.findIdx? (fun t => t.id == session.task_id) with
        | some i =>
          let task := (tf.tasks.get? i).getD {}
          { tf with tasks :=
              tf.tasks.set i (update_task_progress task (pyInt session.elapsed_minutes)) }
        | none => tf
      else tf
    .ok (session, { focus := focus', tasksFile := tf' })

-- ═══════════════════════ core/finalize.py ═══════════════════════

/-- The workspace files `finalize_day` reads or writes.  The analytics,
agent-context and hook stages (best-effort, exception-swallowed) write
only files outside this record and are not modelled. -/
structure Workspace where
  draft : CheckinDraft
  state : State
  reflections : List Char
  tasksFile : TasksFile
  plan : List Char
  planPrev : Option (List Char)
deriving Repr, DecidableEq

/-- The value `finalize_day` returns. -/
inductive FinalizeResult where
  | noDraft (today : List Char)
  | alreadyFinalized (day : List Char)
  | success (day rating : List Char) (streak : Int) (task_updates : List (List Char))
deriving Repr, DecidableEq

/-- Lexicographic `<` on strings by code point (Python string order). -/
def strLt : List Char → List Char → Bool
  | [], [] => false
  | [], _ :: _ => true
  | _ :: _, [] => false
  | a :: as_, b :: bs =>
    if a.toNat < b.toNat then true
    else if b.toNat < a.toNat then false
    else strLt as_ bs

/-- The dict comprehension `{e.day: e for e in history}` followed by
`by_day[day] = e`: keep the last entry per day at the day's first
position, appending new days. -/
def upsertByDay (l : List HistoryEntry) (e : HistoryEntry) : List HistoryEntry :=
  if l.any (fun x => x.day == e.day) then
    l.map (fun x => if x.day == e.day then e else x)
  else l ++ [e]

/-- Python `l[-n:]`. -/
def takeLast (n : Nat) (l : List α) : List α := l.drop (l.length - n)

/-- The `item.label or "(item)"` collection loop of `finalize_day`:
labels of the done items. -/
def doneItems (draft : CheckinDraft) : List (List Char) :=
  draft.items.filterMap fun kv =>
    if kv.2.done then some (if kv.2.label ≠ [] then kv.2.label else lit "(item)")
    else none

/-- The mode normalisation of `finalize_day` (anything outside
`{commit, recovery}` is treated as `commit`). -/
def draftModeOf (draft : CheckinDraft) : List Char :=
  if draft.mode = lit "commit" ∨ draft.mode = lit "recovery" then draft.mode
  else lit "commit"

/-- The plan-changed detection of `finalize_day`: compare the stripped
current plan with the stripped previous plan when `plan_prev.md` exists,
else report a change exactly when the current plan is non-blank. -/
def planChangedOf (plan : List Char) (planPrev : Option (List Char)) : Bool :=
  match planPrev with
  | some prev => pyStrip prev != pyStrip plan
  | none => pyStrip plan != []

/-- The streak-counting decision of `finalize_day`: `counts_for_streak`,
plus the recovery-mode allowance for a long reflection alone. -/
def finalizeCounts (draft : CheckinDraft) (plan_changed : Bool) : Bool :=
  let counts := counts_for_streak (doneItems draft).length draft.reflection plan_changed
  if draftModeOf draft = lit "recovery" then
    counts || decide (30 ≤ (pyStrip draft.reflection).length)
  else counts

/-- The streak arithmetic of `finalize_day` (source lines 106–127):
from the counting decision, the current streak, `lastStreakDate`, today's
date string and today's ordinal, produce the new
`(streak, lastStreakDate)` pair. -/
def streakUpdate (counts : Bool) (streak : Int) (last_streak_date : Option (List Char))
    (today : List Char) (now_ord : Int) : Int × Option (List Char) :=
  if counts then
    if last_streak_date ≠ some today then
      match last_streak_date with
      | some lsd =>
        match parseIsoDate lsd with
        | some last_ord =>
          if 1 < now_ord - last_ord then (1, some today)
          else (streak + 1, some today)
        | none => (1, some today)
      | none => (1, some today)
    else (streak, last_streak_date)
  else (streak, last_streak_date)

/-- `core/finalize.py::finalize_day` over the workspace files, with the
clock passed in: `today` is `today_str()`, `now_ord` the ordinal of
`now_local().date()`, and `now_iso_min`/`now_iso_sec` the rendered
timestamps used in the entry and the cleared draft. -/
def finalize_day (ws : Workspace) (today : List Char) (now_ord : Int)
    (now_iso_min now_iso_sec : List Char) : FinalizeResult × Workspace :=
  if ws.draft.day ≠ today then (.noDraft today, ws)
  else if ws.state.last_finalized_date = some today then (.alreadyFinalized today, ws)
  else
    let draft := ws.draft
    let draft_mode := draftModeOf draft
    let reflection := draft.reflection
    let done_items := doneItems draft
    let total_items := draft.items.length
    let done_count := done_items.length
    let plan_changed := planChangedOf ws.plan ws.planPrev
    let rating := compute_rating done_count total_items reflection false
    let rating :=
      if draft_mode = lit "recovery" ∧ rating = lit "bad" ∧
          (1 ≤ done_count ∨ 30 ≤ (pyStrip reflection).length) then lit "fair"
      else rating
    let counts := finalizeCounts draft plan_changed
    let sl := streakUpdate counts ws.state.streak ws.state.last_streak_date today now_ord
    let streak := sl.1
    let summary := summarize_paragraph today rating done_items 0 reflection
    let hist_entry : HistoryEntry :=
      ⟨today, rating, draft_mode, counts, (done_count : Int), (total_items : Int)⟩
    let history' :=
      takeLast 30 (pySort (fun a b => !(strLt b.day a.day))
        (upsertByDay (ws.state.history.foldl upsertByDay []) hist_entry))
    let entry_md := build_reflection_entry today now_iso_min rating draft_mode
      done_items draft.items reflection summary
    let reflections' := prepend_reflection ws.reflections entry_md
    let state' : State :=
      { ws.state with
        streak := streak
        last_streak_date := sl.2
        last_rating := some rating
        last_mode := some draft_mode
        last_summary := some summary
        last_finalized_date := some today
        history := history' }
    let r1 := reset_weekly_budgets ws.tasksFile state' today
    let r2 := process_checkin_progress draft r1.2.1
    let task_updates := r2.1
    let r3 := archive_completed_tasks r2.2
    let tasksChanged := task_updates ≠ [] ∨ r3.1 ≠ []
    let tasksFile' := if tasksChanged then r3.2 else ws.tasksFile
    let stateFinal := if tasksChanged then r1.2.2 else state'
    let draft' : CheckinDraft :=
      { day := today, updated_at := now_iso_sec, mode := lit "commit",
        items := [], reflection := [] }
    (.success today rating streak task_updates,
     { draft := draft', state := stateFinal, reflections := reflections',
       tasksFile := tasksFile', plan := ws.plan, planPrev := ws.planPrev })

-- ═══════════════════════════ Theorems ═══════════════════════════

/-- **C2.** `compute_rating` is deterministic in
`(done count, total items, trimmed reflection length, anyTimed)` and returns
exactly one of `good`/`fair`/`bad`: `good` iff
`done ≥ max(1, total // 2) ∨ done ≥ 2 ∨ (anyTimed ∧ done ≥ 1)`; otherwise
`fair` iff `done ≥ 1 ∨ len(trim(reflection)) ≥ 30`; otherwise `bad`. -/
theorem compute_rating_spec (d t : Nat) (r : List Char) (a : Bool) :
    (compute_rating d t r a = lit "good" ∨ compute_rating d t r a = lit "fair" ∨
      compute_rating d t r a = lit "bad") ∧
    (compute_rating d t r a = lit "good" ↔
      (d ≥ max 1 (t / 2) ∨ d ≥ 2 ∨ (a = true ∧ d ≥ 1))) ∧
    (compute_rating d t r a = lit "fair" ↔
      (¬(d ≥ max 1 (t / 2) ∨ d ≥ 2 ∨ (a = true ∧ d ≥ 1)) ∧
        (d ≥ 1 ∨ (pyStrip r).length ≥ 30))) ∧
    (compute_rating d t r a = lit "bad" ↔
      (¬(d ≥ max 1 (t / 2) ∨ d ≥ 2 ∨ (a = true ∧ d ≥ 1)) ∧
        ¬(d ≥ 1 ∨ (pyStrip r).length ≥ 30))) ∧
    (∀ r' : List Char, (pyStrip r').length = (pyStrip r).length →
      compute_rating d t r' a = compute_rating d t r a) := by
  have hgood_fair : lit "good" ≠ lit "fair" := by decide
  have hgood_bad : lit "good" ≠ lit "bad" := by decide
  have hfair_bad : lit "fair" ≠ lit "bad" := by decide
  have hdef : ∀ rr : List Char, compute_rating d t rr a =
      if d ≥ max 1 (t / 2) ∨ d ≥ 2 ∨ (a = true ∧ d ≥ 1) then lit "good"
      else if d ≥ 1 ∨ (pyStrip rr).length ≥ 30 then lit "fair" else lit "bad" :=
    fun _ => rfl
  by_cases hg : d ≥ max 1 (t / 2) ∨ d ≥ 2 ∨ (a = true ∧ d ≥ 1)
  · have e : compute_rating d t r a = lit "good" := by rw [hdef, if_pos hg]
    refine ⟨Or.inl e, ?_, ?_, ?_, ?_⟩
    · rw [e]; exact ⟨fun _ => hg, fun _ => rfl⟩
    · rw [e]; exact ⟨fun h => absurd h hgood_fair, fun h => absurd hg h.1⟩
    · rw [e]; exact ⟨fun h => absurd h hgood_bad, fun h => absurd hg h.1⟩
    · intro r' _
      rw [hdef r', if_pos hg, e]
  · by_cases hf : d ≥ 1 ∨ (pyStrip r).length ≥ 30
    · have e : compute_rating d t r a = lit "fair" := by
        rw [hdef, if_neg hg, if_pos hf]
      refine ⟨Or.inr (Or.inl e), ?_, ?_, ?_, ?_⟩
      · rw [e]; exact ⟨fun h => absurd h.symm hgood_fair, fun h => absurd h hg⟩
      · rw [e]; exact ⟨fun _ => ⟨hg, hf⟩, fun _ => rfl⟩
      · rw [e]; exact ⟨fun h => absurd h hfair_bad, fun h => absurd hf h.2⟩
      · intro r' h
        have hf' : d ≥ 1 ∨ (pyStrip r').length ≥ 30 := by rw [h]; exact hf
        rw [hdef r', if_neg hg, if_pos hf', e]
    · have e : compute_rating d t r a = lit "bad" := by
        rw [hdef, if_neg hg, if_neg hf]
      refine ⟨Or.inr (Or.inr e), ?_, ?_, ?_, ?_⟩
      · rw [e]; exact ⟨fun h => absurd h.symm hgood_bad, fun h => absurd h hg⟩
      · rw [e]; exact ⟨fun h => absurd h.symm hfair_bad, fun h => absurd h.2 hf⟩
      · rw [e]; exact ⟨fun _ => ⟨hg, hf⟩, fun _ => rfl⟩
      · intro r' h
        have hf' : ¬(d ≥ 1 ∨ (pyStrip r').length ≥ 30) := by rw [h]; exact hf
        rw [hdef r', if_neg hg, if_neg hf', e]

/-- Witness for C2 at a concrete input: zero done items but a 30-character
reflection rates `fair`. -/
theorem compute_rating_spec_witness :
    compute_rating 0 5 (lit "aaaaaaaaaaaaaaaaaaaaaaaaaaaaaa") false = lit "fair" :=
  ((compute_rating_spec 0 5 (lit "aaaaaaaaaaaaaaaaaaaaaaaaaaaaaa") false).2.2.1).mpr
    (by decide)
/-- `reset_weekly_budgets` only ever touches `week_start_date` on the
state: streak and `lastStreakDate` pass through. -/
theorem reset_preserves_streak (tf : TasksFile) (st : State) (td : List Char) :
    (reset_weekly_budgets tf st td).2.2.streak = st.streak ∧
    (reset_weekly_budgets tf st td).2.2.last_streak_date = st.last_streak_date := by
  unfold reset_weekly_budgets
  cases hp : parseIsoDate td with
  | none => exact ⟨rfl, rfl⟩
  | some o =>
    dsimp only
    constructor
    · split
      · rfl
      · split
        · rfl
        · split
          · rfl
          · rfl
    · split
      · rfl
      · split
        · rfl
        · split
          · rfl
          · rfl

/-- **C1.** `finalize_day` is idempotent per day: when a draft for today
exists (`draft.day = today`) and `state.lastFinalizedDate` already equals
today, the call returns the `already_finalized` success and the workspace
files — `state.json`, `tasks.yaml`, `reflections.md` and the checkin
draft — are all returned unchanged. -/
theorem finalize_day_idempotent (ws : Workspace) (today : List Char)
    (now_ord : Int) (nim nis : List Char)
    (hdraft : ws.draft.day = today)
    (hfin : ws.state.last_finalized_date = some today) :
    finalize_day ws today now_ord nim nis = (.alreadyFinalized today, ws) := by
  unfold finalize_day
  rw [if_neg (not_not_intro hdraft), if_pos hfin]

/-- Concrete workspace on which the idempotency witness runs. -/
def sampleWsIdem : Workspace :=
  { draft := { day := lit "2026-02-11" }
    state := { streak := 2, last_finalized_date := some (lit "2026-02-11") }
    reflections := lit "# Reflections (rolling)\n\n---\n\n## 2026-02-10\nold\n"
    tasksFile := {}
    plan := lit "# Plan"
    planPrev := none }

/-- Witness for C1: a second finalization on `2026-02-11` returns
`already_finalized` and the exact same files. -/
theorem finalize_day_idempotent_witness :
    finalize_day sampleWsIdem (lit "2026-02-11") 739658 [] [] =
      (.alreadyFinalized (lit "2026-02-11"), sampleWsIdem) :=
  finalize_day_idempotent sampleWsIdem (lit "2026-02-11") 739658 [] [] rfl rfl

/-- **C3.** The streak arithmetic of `finalize_day`: the streak never
goes negative; when the day does not count, streak and `lastStreakDate`
are unchanged; when it counts and `lastStreakDate ≠ today`: an unset
`lastStreakDate` yields streak 1, a set one yields `streak + 1` when the
day gap is at most 1 and 1 otherwise, and `lastStreakDate` becomes
today.  The last conjunct ties this to `finalize_day` itself: on any run
that passes the gates, the persisted state's `(streak, lastStreakDate)`
is exactly `streakUpdate` of the inputs. -/
theorem finalize_streak_spec (counts : Bool) (streak : Int)
    (lsd : Option (List Char)) (today : List Char) (now_ord : Int) :
    (0 ≤ streak → 0 ≤ (streakUpdate counts streak lsd today now_ord).1) ∧
    (counts = false → streakUpdate counts streak lsd today now_ord = (streak, lsd)) ∧
    (counts = true → lsd ≠ some today →
      (streakUpdate counts streak lsd today now_ord).2 = some today ∧
      (lsd = none → (streakUpdate counts streak lsd today now_ord).1 = 1) ∧
      ∀ s lo, lsd = some s → parseIsoDate s = some lo →
        (streakUpdate counts streak lsd today now_ord).1 =
          if now_ord - lo ≤ 1 then streak + 1 else 1) ∧
    (∀ ws : Workspace, ∀ nim nis : List Char, ws.draft.day = today →
      ws.state.last_finalized_date ≠ some today →
      ((finalize_day ws today now_ord nim nis).2.state.streak,
       (finalize_day ws today now_ord nim nis).2.state.last_streak_date) =
        streakUpdate (finalizeCounts ws.draft (planChangedOf ws.plan ws.planPrev))
          ws.state.streak ws.state.last_streak_date today now_ord) := by
  refine ⟨?_, ?_, ?_, ?_⟩
  · intro h
    cases counts with
    | false => exact h
    | true =>
      unfold streakUpdate
      rw [if_pos rfl]
      by_cases hne : lsd ≠ some today
      · rw [if_pos hne]
        rcases lsd with _ | s
        · dsimp only; omega
        · dsimp only
          cases hps : parseIsoDate s with
          | none => dsimp only; omega
          | some lo =>
            dsimp only
            split
            · dsimp only; omega
            · dsimp only; omega
      · rw [if_neg hne]
        exact h
  · intro hc; subst hc; rfl
  · intro hc hne; subst hc
    rcases lsd with _ | s
    · have e : streakUpdate true streak none today now_ord = (1, some today) := by
        unfold streakUpdate
        rw [if_pos rfl, if_pos hne]
      exact ⟨by rw [e], fun _ => by rw [e], fun s lo hs _ => Option.noConfusion hs⟩
    · cases hps : parseIsoDate s with
      | none =>
        have e : streakUpdate true streak (some s) today now_ord = (1, some today) := by
          unfold streakUpdate
          rw [if_pos rfl, if_pos hne]
          dsimp only
          rw [hps]
        refine ⟨by rw [e], fun h0 => Option.noConfusion h0, ?_⟩
        intro s' lo hs' hp
        injection hs' with hss; subst hss
        rw [hps] at hp
        exact Option.noConfusion hp
      | some lo0 =>
        have e : streakUpdate true streak (some s) today now_ord =
            (if 1 < now_ord - lo0 then (1, some today) else (streak + 1, some today)) := by
          unfold streakUpdate
          rw [if_pos rfl, if_pos hne]
          dsimp only
          rw [hps]
        refine ⟨?_, fun h0 => Option.noConfusion h0, ?_⟩
        · rw [e]; split <;> rfl
        · intro s' lo hs' hp
          injection hs' with hss; subst hss
          rw [hps] at hp
          injection hp with hlo; subst hlo
          rw [e]
          by_cases hg : now_ord - lo0 ≤ 1
          · rw [if_neg (by omega), if_pos hg]
          · rw [if_pos (by omega), if_neg hg]
  · intro ws nim nis hdraft hnotfin
    unfold finalize_day
    rw [if_neg (not_not_intro hdraft), if_neg hnotfin]
    dsimp only
    refine Prod.ext ?_ ?_
    · dsimp only
      rw [apply_ite State.streak, (reset_preserves_streak _ _ _).1, ite_self]
    · dsimp only
      rw [apply_ite State.last_streak_date, (reset_preserves_streak _ _ _).2, ite_self]

/-- Witness for C3: counting day, previous streak date is yesterday —
the streak increments from 3 to 4. -/
theorem finalize_streak_spec_witness :
    (streakUpdate true 3 (some (lit "2026-02-10")) (lit "2026-02-11") 739658).1 = 4 := by
  have h := ((finalize_streak_spec true 3 (some (lit "2026-02-10"))
      (lit "2026-02-11") 739658).2.2.1 rfl (by decide)).2.2
    (lit "2026-02-10") 739657 rfl (by decide)
  rw [h, if_pos (by norm_num)]
  norm_num

/-- **C8.** `update_task_progress`: on a `deadline_project` with
`remaining_hours` set, the hours drop by `m/60` clamped at 0 and the
status is set to `complete` exactly when the clamped value reaches 0
(otherwise the status is left as it was); on a `weekly_budget`, `m/60`
is added to `hours_this_week` and nothing else (status included)
changes; on a `daily_ritual` the task is unchanged. -/
theorem update_task_progress_spec (task : Task) (m : Int) :
    (∀ r : ℚ, task.type = lit "deadline_project" → task.remaining_hours = some r →
      update_task_progress task m =
        { task with
            remaining_hours := some (max 0 (r - (m : ℚ) / 60))
            status :=
              if max 0 (r - (m : ℚ) / 60) = 0 then lit "complete" else task.status }) ∧
    (task.type = lit "weekly_budget" →
      update_task_progress task m =
        { task with hours_this_week := task.hours_this_week + (m : ℚ) / 60 }) ∧
    (task.type = lit "daily_ritual" → update_task_progress task m = task) := by
  refine ⟨?_, ?_, ?_⟩
  · intro r htype hrh
    unfold update_task_progress
    rw [if_pos ⟨htype, by rw [hrh]; rfl⟩, hrh]
    dsimp only
    by_cases hz : max 0 (r - (m : ℚ) / 60) = 0
    · rw [if_pos (le_of_eq hz), if_pos hz]
    · rw [if_neg (fun hle => hz (le_antisymm hle (le_max_left _ _))), if_neg hz]
  · intro htype
    unfold update_task_progress
    rw [if_neg (fun hc => absurd (htype.symm.trans hc.1) (by decide)), if_pos htype]
  · intro htype
    unfold update_task_progress
    rw [if_neg (fun hc => absurd (htype.symm.trans hc.1) (by decide)),
      if_neg (fun hc => absurd (htype.symm.trans hc) (by decide))]

/-- Concrete task for the C8 witness. -/
def sampleDeadlineTask : Task :=
  { id := lit "paper", title := lit "Deadline paper",
    type := lit "deadline_project", remaining_hours := some 10 }

/-- Witness for C8: logging 120 minutes against 10 remaining hours
leaves 8 hours and an unchanged (`active`) status. -/
theorem update_task_progress_spec_witness :
    (update_task_progress sampleDeadlineTask 120).remaining_hours = some 8 ∧
    (update_task_progress sampleDeadlineTask 120).status = lit "active" := by
  have h := (update_task_progress_spec sampleDeadlineTask 120).1 10 rfl rfl
  rw [h]
  constructor
  · show some (max 0 (10 - (120 : ℚ) / 60)) = some 8
    norm_num
  · show (if max 0 (10 - (120 : ℚ) / 60) = 0 then lit "complete"
      else sampleDeadlineTask.status) = lit "active"
    rw [if_neg (by norm_num)]
    rfl
/-- **C10.** Validation failures are atomic on the in-memory tasks file:
`create_task` on a payload failing schema validation, or duplicating an
existing id, returns a non-empty error list and the unchanged file;
`update_task` whose merged object fails validation returns the errors and
the unchanged file. -/
theorem task_crud_validation_atomic (tf : TasksFile) (d : Dict)
    (task_id : List Char) (u : Dict) :
    (validate_task d ≠ [] →
      create_task tf d = .ok (({}, validate_task d), tf)) ∧
    (validate_task d = [] →
      ∀ idv, dictGet d (lit "id") = some idv →
      (tf.tasks.find? (fun t => idEqVal t.id idv)).isSome = true →
      create_task tf d =
        .ok (({}, [lit "Task ID already exists: " ++ pyStrOf idv]), tf)) ∧
    (∀ task, find_task tf task_id = some task →
      validate_task (dictUpdate task.to_dict u) ≠ [] →
      update_task tf task_id u =
        .ok ((none, validate_task (dictUpdate task.to_dict u)), tf)) := by
  refine ⟨?_, ?_, ?_⟩
  · intro h
    unfold create_task
    rw [if_pos h]
  · intro h idv hidv hdup
    unfold create_task
    rw [if_neg (not_not_intro h), hidv]
    dsimp only [Option.getD_some]
    rw [if_pos hdup]
  · intro task hfind herr
    unfold update_task
    rw [hfind]
    dsimp only
    rw [if_pos herr]

/-- Tasks file for the C10 witness. -/
def sampleCrudTf : TasksFile :=
  { tasks := [{ id := lit "a", title := lit "A", type := lit "open_ended" }] }

/-- Witness for C10: a payload missing `id`/`type` is rejected without
touching the file, and a patch setting `priority := 0` on task `a` is
rejected without touching the file. -/
theorem task_crud_validation_atomic_witness :
    create_task sampleCrudTf [(lit "title", AnyVal.vStr (lit "X"))] =
      .ok (({}, validate_task [(lit "title", AnyVal.vStr (lit "X"))]), sampleCrudTf) ∧
    update_task sampleCrudTf (lit "a") [(lit "priority", AnyVal.vInt 0)] =
      .ok ((none, validate_task (dictUpdate
        (Task.to_dict { id := lit "a", title := lit "A", type := lit "open_ended" })
        [(lit "priority", AnyVal.vInt 0)])), sampleCrudTf) :=
  ⟨(task_crud_validation_atomic sampleCrudTf [(lit "title", AnyVal.vStr (lit "X"))]
      (lit "a") [(lit "priority", AnyVal.vInt 0)]).1 (by decide),
   (task_crud_validation_atomic sampleCrudTf [(lit "title", AnyVal.vStr (lit "X"))]
      (lit "a") [(lit "priority", AnyVal.vInt 0)]).2.2
     { id := lit "a", title := lit "A", type := lit "open_ended" }
     (by decide) (by decide)⟩

/-- **C7 (amended).** `stop_session` ends the active session with
`elapsedMinutes = round(now − startedAt, 1)`, appends it to history, and
— only when the elapsed time is positive — applies
`update_task_progress(task, int(elapsedMinutes))` (truncation, not
rounding) to the first task whose id is the session's `taskId`; when no
task matches, the tasks file is unchanged (the failure is silent). -/
theorem stop_session_trunc_spec (f : FocusFiles) (c : Bool) (notes : List Char)
    (now : ℚ) (s0 : FocusSession)
    (hact : f.focus.active_session = some s0) :
    ∃ sess files, stop_session f c notes now = .ok (sess, files) ∧
      sess.elapsed_minutes = pyRound1 (now - s0.started_at) ∧
      files.focus.active_session = none ∧
      files.focus.history = f.focus.history ++ [sess] ∧
      (0 < sess.elapsed_minutes →
        ∀ i task, f.tasksFile.tasks.findIdx? (fun t => t.id == s0.task_id) = some i →
          f.tasksFile.tasks.get? i = some task →
          files.tasksFile.tasks =
            f.tasksFile.tasks.set i
              (update_task_progress task (pyInt sess.elapsed_minutes))) ∧
      (f.tasksFile.tasks.findIdx? (fun t => t.id == s0.task_id) = none →
        files.tasksFile = f.tasksFile) := by
  unfold stop_session
  rw [hact]
  dsimp only
  refine ⟨_, _, rfl, rfl, rfl, rfl, ?_, ?_⟩
  · intro hpos i task hidx hget
    dsimp only
    rw [if_pos hpos, hidx]
    dsimp only
    rw [hget]
    rfl
  · intro hnone
    dsimp only
    split
    · rw [hnone]
    · rfl

/-- Session for the C7 witness and counterexample. -/
def sampleSession : FocusSession :=
  { task_id := lit "paper", task_label := lit "Deadline paper", started_at := 0 }

/-- Deadline task targeted by the C7 session. -/
def samplePaperTask : Task :=
  { id := lit "paper", title := lit "Deadline paper",
    type := lit "deadline_project", remaining_hours := some 10 }

/-- Focus state for the C7 witness and counterexample. -/
def sampleFocusFiles : FocusFiles :=
  { focus := { active_session := some sampleSession }
    tasksFile := { tasks := [samplePaperTask] } }

/-- Witness for the amended C7: stopping after exactly 30 minutes yields
`elapsedMinutes = 30`. -/
theorem stop_session_trunc_spec_witness :
    ∃ sess files, stop_session sampleFocusFiles true [] 30 = .ok (sess, files) ∧
      sess.elapsed_minutes = 30 := by
  obtain ⟨sess, files, h1, h2, _⟩ :=
    stop_session_trunc_spec sampleFocusFiles true [] 30 sampleSession rfl
  refine ⟨sess, files, h1, h2.trans ?_⟩
  show pyRound1 (30 - 0) = 30
  norm_num [pyRound1, pyRoundHalfEven]
/-- **C7 counterexample.**  The claim says the progress update applies
`update_task_progress(task, round(elapsedMinutes))`; the source applies
`int(session.elapsed_minutes)` (truncation).  Stopping a session after
25.7 minutes against a `deadline_project` with 10 remaining hours leaves
`10 - 25/60 = 115/12` hours, which differs from the claimed
`10 - round(25.7)/60 = 10 - 26/60`. -/
theorem stop_session_round_counterexample :
    (∃ sess files, stop_session sampleFocusFiles true [] (257 / 10) = .ok (sess, files) ∧
      sess.elapsed_minutes = 257 / 10 ∧
      files.tasksFile.tasks.map Task.remaining_hours = [some (115 / 12)]) ∧
    (115 : ℚ) / 12 ≠ 10 - (pyRoundHalfEven ((257 : ℚ) / 10) : ℚ) / 60 := by
  have he : pyRound1 ((257 : ℚ) / 10 - sampleSession.started_at) = 257 / 10 := by
    norm_num [pyRound1, pyRoundHalfEven, sampleSession]
  have hp : pyInt ((257 : ℚ) / 10) = 25 := by norm_num [pyInt]
  have hrem : (update_task_progress samplePaperTask 25).remaining_hours =
      some (115 / 12) := by
    unfold update_task_progress
    rw [if_pos ⟨rfl, rfl⟩]
    dsimp only [samplePaperTask]
    rw [apply_ite Task.remaining_hours]
    dsimp only
    rw [ite_self]
    norm_num
  constructor
  · refine ⟨_, _, rfl, ?_, ?_⟩
    · dsimp only
      exact he
    · dsimp only
      rw [he, if_pos (by norm_num : (0 : ℚ) < 257 / 10)]
      have hidx : sampleFocusFiles.tasksFile.tasks.findIdx?
          (fun t => t.id == sampleSession.task_id) = some 0 := by decide
      rw [hidx]
      dsimp only [sampleFocusFiles, List.get?, List.set, List.map, Option.getD]
      rw [hp, hrem]
  · have h26 : pyRoundHalfEven ((257 : ℚ) / 10) = 26 := by
      norm_num [pyRoundHalfEven]
    rw [h26]
    norm_num
-- ════════ Sorting lemmas: pySort is a stable sort ════════

theorem pyInsert_eq_orderedInsert (le : α → α → Bool) (x : α) :
    ∀ l, pyInsert le x l = List.orderedInsert (fun a b => le a b = true) x l := by
  intro l
  induction l with
  | nil => rfl
  | cons y ys ih =>
    by_cases h : le x y = true <;>
      simp [pyInsert, List.orderedInsert, h, ih]

theorem pySort_eq_insertionSort (le : α → α → Bool) :
    ∀ l, pySort le l = List.insertionSort (fun a b => le a b = true) l := by
  intro l
  induction l with
  | nil => rfl
  | cons y ys ih =>
    simp [pySort, List.insertionSort, ih, pyInsert_eq_orderedInsert]

theorem pySort_perm (le : α → α → Bool) (l : List α) : (pySort le l).Perm l := by
  rw [pySort_eq_insertionSort]
  exact List.perm_insertionSort _ l

theorem pySort_pairwise (le : α → α → Bool)
    (htot : ∀ a b, le a b || le b a)
    (htrans : ∀ a b c, le a b = true → le b c = true → le a c = true)
    (l : List α) : (pySort le l).Pairwise (fun a b => le a b = true) := by
  rw [pySort_eq_insertionSort]
  haveI : IsTotal α (fun a b => le a b = true) :=
    ⟨fun a b => Bool.or_eq_true_iff.mp (htot a b)⟩
  haveI : IsTrans α (fun a b => le a b = true) := ⟨htrans⟩
  exact List.sorted_insertionSort _ l

-- ════════ C6: the computed-fields projection ════════

/-- Tasks file exposing the missing ritual boost for the C6
counterexample. -/
def sampleRitualTf : TasksFile :=
  { tasks := [{ id := lit "stretch", title := lit "Stretch",
                type := lit "daily_ritual", priority := 5 }] }

/-- **C6 counterexample.**  The claim gives `daily_ritual` tasks a `+1`
urgency boost (and deadline projects without a parseable deadline a `+2`);
`get_tasks_with_computed_fields` grants neither — those boosts exist only
in the scheduler's `compute_task_priority_score`.  A priority-5
`daily_ritual` projects to `urgency_score = 5`, not `5 + 1`. -/
theorem get_tasks_computed_counterexample :
    ((get_tasks_with_computed_fields sampleRitualTf (lit "2026-02-11") 739658).map
      ComputedTask.urgency_score) = [5] ∧
    (5 : ℚ) ≠ 5 + 1 := by
  constructor
  · have hc1 : ¬((lit "daily_ritual") = lit "deadline_project" ∧
        (Option.getD (none : Option (List Char)) [] ≠ [])) := by decide
    have hc2 : ¬((lit "daily_ritual") = lit "weekly_budget" ∧
        optRatTruthy none = true) := by decide
    unfold get_tasks_with_computed_fields sampleRitualTf
    dsimp only [List.map]
    rw [if_neg hc1, if_neg hc2]
    dsimp only [pySort, pyInsert, List.map]
    norm_num [pyRound2, pyRoundHalfEven]
  · norm_num

/-- **C6 (amended).**  For every task in the file (active or not), the
projection's `urgency_score` is
`round(priority + deadline_boost + budget_boost, 2)` where the deadline
boost is `(remaining_hours / max(1, days_until_deadline)) × 5` only when
the deadline parses and `remaining_hours > 0` (no `+2` fallback), the
budget boost is `(max(0, target − hours_this_week)/target) × 3` for a
`weekly_budget` with truthy target, and a `daily_ritual` receives no
boost; the rows are a permutation of the file's tasks sorted descending
by `urgency_score`. -/
theorem get_tasks_computed_spec (tf : TasksFile) (today : List Char)
    (sysToday : Int) :
    ((get_tasks_with_computed_fields tf today sysToday).map ComputedTask.task).Perm
      tf.tasks ∧
    (∀ row ∈ get_tasks_with_computed_fields tf today sysToday,
      row.urgency_score = pyRound2 ((row.task.priority : ℚ) +
        (if row.task.type = lit "deadline_project" ∧ row.task.deadline.getD [] ≠ [] then
          match parseIsoDate (row.task.deadline.getD []), row.task.remaining_hours with
          | some dl, some rh =>
            if 0 < rh then
              rh / ((max 1 (dl - (parseIsoDate today).getD sysToday) : Int) : ℚ) * 5
            else 0
          | _, _ => 0
         else 0) +
        (if row.task.type = lit "weekly_budget" ∧
            optRatTruthy row.task.target_hours_per_week then
          max 0 (row.task.target_hours_per_week.getD 1 - row.task.hours_this_week) /
            row.task.target_hours_per_week.getD 1 * 3
         else 0))) ∧
    (get_tasks_with_computed_fields tf today sysToday).Pairwise
      (fun a b => b.urgency_score ≤ a.urgency_score) := by
  unfold get_tasks_with_computed_fields
  refine ⟨?_, ?_, ?_⟩
  · refine ((pySort_perm _ _).map ComputedTask.task).trans ?_
    rw [List.map_map]
    exact List.Perm.of_eq (List.map_id tf.tasks)
  · intro row hrow
    have hmem := (pySort_perm _ _).mem_iff.mp hrow
    rw [List.mem_map] at hmem
    obtain ⟨t, _, hft⟩ := hmem
    subst hft
    dsimp only
    congr 1
    have hdu : (if t.type = lit "deadline_project" ∧ t.deadline.getD [] ≠ [] then
        match parseIsoDate (t.deadline.getD []) with
        | some dl =>
          ((some (max 1 (dl - (parseIsoDate today).getD sysToday)) : Option Int),
           match t.remaining_hours with
           | some rh =>
             if 0 < rh then
               (t.priority : ℚ) +
                 rh / ((max 1 (dl - (parseIsoDate today).getD sysToday) : Int) : ℚ) * 5
             else (t.priority : ℚ)
           | none => (t.priority : ℚ))
        | none => ((none : Option Int), (t.priority : ℚ))
       else ((none : Option Int), (t.priority : ℚ))).2 =
        (t.priority : ℚ) +
        (if t.type = lit "deadline_project" ∧ t.deadline.getD [] ≠ [] then
          match parseIsoDate (t.deadline.getD []), t.remaining_hours with
          | some dl, some rh =>
            if 0 < rh then
              rh / ((max 1 (dl - (parseIsoDate today).getD sysToday) : Int) : ℚ) * 5
            else 0
          | _, _ => 0
         else 0) := by
      by_cases hc1 : t.type = lit "deadline_project" ∧ t.deadline.getD [] ≠ []
      · rw [if_pos hc1, if_pos hc1]
        cases hpd : parseIsoDate (t.deadline.getD []) with
        | none => dsimp only; rw [add_zero]
        | some dl =>
          cases hrh : t.remaining_hours with
          | none => dsimp only; rw [add_zero]
          | some rh =>
            dsimp only
            by_cases hpos : 0 < rh
            · rw [if_pos hpos, if_pos hpos]
            · rw [if_neg hpos, if_neg hpos, add_zero]
      · rw [if_neg hc1, if_neg hc1, add_zero]
    by_cases hc2 : t.type = lit "weekly_budget" ∧ optRatTruthy t.target_hours_per_week
    · rw [if_pos hc2, if_pos hc2]
      dsimp only
      rw [hdu]
    · rw [if_neg hc2, if_neg hc2]
      dsimp only
      rw [hdu, add_zero]
  · have htot : ∀ a b : ComputedTask,
        (decide (b.urgency_score ≤ a.urgency_score) ||
          decide (a.urgency_score ≤ b.urgency_score)) = true := by
      intro a b
      rcases le_total b.urgency_score a.urgency_score with h | h <;> simp [h]
    have htrans : ∀ a b c : ComputedTask,
        decide (b.urgency_score ≤ a.urgency_score) = true →
        decide (c.urgency_score ≤ b.urgency_score) = true →
        decide (c.urgency_score ≤ a.urgency_score) = true := by
      intro a b c hab hbc
      simp only [decide_eq_true_eq] at hab hbc ⊢
      exact le_trans hbc hab
    exact List.Pairwise.imp (fun hab => by simpa using hab)
      (pySort_pairwise _ htot htrans _)

/-- The single row the projection produces on `sampleRitualTf`. -/
def sampleRitualRow : ComputedTask :=
  { task := { id := lit "stretch", title := lit "Stretch",
              type := lit "daily_ritual", priority := 5 },
    urgency_score := 5 }

/-- Witness for the amended C6: on the one-ritual file the projection's
row satisfies the urgency formula, evaluating to 5. -/
theorem get_tasks_computed_spec_witness :
    sampleRitualRow ∈
      get_tasks_with_computed_fields sampleRitualTf (lit "2026-02-11") 739658 ∧
    sampleRitualRow.urgency_score = 5 := by
  have hc1 : ¬((lit "daily_ritual") = lit "deadline_project" ∧
      (Option.getD (none : Option (List Char)) [] ≠ [])) := by decide
  have hc2 : ¬((lit "daily_ritual") = lit "weekly_budget" ∧
      optRatTruthy none = true) := by decide
  have hmem : sampleRitualRow ∈
      get_tasks_with_computed_fields sampleRitualTf (lit "2026-02-11") 739658 := by
    unfold get_tasks_with_computed_fields sampleRitualTf
    dsimp only [List.map]
    rw [if_neg hc1, if_neg hc2]
    dsimp only [pySort, pyInsert]
    refine List.mem_singleton.mpr ?_
    unfold sampleRitualRow
    have : pyRound2 (((5 : Int) : ℚ)) = 5 := by
      norm_num [pyRound2, pyRoundHalfEven]
    rw [this]
  refine ⟨hmem, ?_⟩
  have h := (get_tasks_computed_spec sampleRitualTf (lit "2026-02-11") 739658).2.1
    sampleRitualRow hmem
  rw [h, if_neg (by decide), if_neg (by decide)]
  norm_num [sampleRitualRow, pyRound2, pyRoundHalfEven]
-- ════════ C4: available-slot invariants ════════

/-- Every piece of `t.subtract o` lies inside `t`. -/
theorem subtract_within (t o : TimeRange) :
    ∀ p ∈ t.subtract o, t.start ≤ p.start ∧ p.stop ≤ t.stop := by
  intro p hp
  unfold TimeRange.subtract at hp
  by_cases ho : t.overlaps o
  · rw [if_neg (not_not_intro ho), List.mem_append] at hp
    rcases hp with hp | hp
    · by_cases h1 : t.start < o.start
      · rw [if_pos h1, List.mem_singleton] at hp
        subst hp
        exact ⟨le_refl _, le_of_lt ho.2⟩
      · rw [if_neg h1] at hp
        simp at hp
    · by_cases h2 : o.stop < t.stop
      · rw [if_pos h2, List.mem_singleton] at hp
        subst hp
        exact ⟨le_of_lt ho.1, le_refl _⟩
      · rw [if_neg h2] at hp
        simp at hp
  · rw [if_pos ho, List.mem_singleton] at hp
    subst hp
    exact ⟨le_refl _, le_refl _⟩

/-- When the removed range is well-formed, the pieces of a subtraction do
not overlap each other. -/
theorem subtract_disjoint (t o : TimeRange) (ho : o.start ≤ o.stop) :
    (t.subtract o).Pairwise (fun a b => ¬ a.overlaps b) := by
  unfold TimeRange.subtract
  by_cases hov : t.overlaps o
  · rw [if_neg (not_not_intro hov)]
    by_cases h1 : t.start < o.start <;> by_cases h2 : o.stop < t.stop <;>
      simp [h1, h2, TimeRange.overlaps]
    all_goals omega
  · rw [if_pos hov]
    simp

/-- Disjointness transfers to subranges. -/
theorem overlaps_mono {a a' b b' : TimeRange}
    (ha : a'.start ≤ a.start ∧ a.stop ≤ a'.stop)
    (hb : b'.start ≤ b.start ∧ b.stop ≤ b'.stop)
    (h : ¬ a'.overlaps b') : ¬ a.overlaps b := by
  unfold TimeRange.overlaps at h ⊢
  omega

/-- Containment in a work block survives the whole blocked-range fold. -/
theorem foldl_subtract_within (wb : List TimeRange) :
    ∀ (blocked l : List TimeRange),
      (∀ s ∈ l, ∃ b ∈ wb, b.start ≤ s.start ∧ s.stop ≤ b.stop) →
      ∀ s ∈ blocked.foldl
        (fun acc block => acc.flatMap (fun slot => slot.subtract block)) l,
        ∃ b ∈ wb, b.start ≤ s.start ∧ s.stop ≤ b.stop := by
  intro blocked
  induction blocked with
  | nil => intro l h s hs; exact h s hs
  | cons o rest ih =>
    intro l h s hs
    refine ih _ ?_ s hs
    intro s' hs'
    rw [List.mem_flatMap] at hs'
    obtain ⟨slot, hslot, hpiece⟩ := hs'
    obtain ⟨b, hb, hb1, hb2⟩ := h slot hslot
    obtain ⟨hp1, hp2⟩ := subtract_within slot o s' hpiece
    exact ⟨b, hb, le_trans hb1 hp1, le_trans hp2 hb2⟩

/-- Pairwise disjointness survives the blocked-range fold, as long as
every blocked range is well-formed. -/
theorem foldl_subtract_disjoint :
    ∀ (blocked l : List TimeRange),
      (∀ o ∈ blocked, o.start ≤ o.stop) →
      l.Pairwise (fun a b => ¬ a.overlaps b) →
      (blocked.foldl
        (fun acc block => acc.flatMap (fun slot => slot.subtract block)) l).Pairwise
        (fun a b => ¬ a.overlaps b) := by
  intro blocked
  induction blocked with
  | nil => intro l _ h; exact h
  | cons o rest ih =>
    intro l hwf h
    refine ih _ (fun o' ho' => hwf o' (List.mem_cons_of_mem _ ho')) ?_
    dsimp only
    rw [List.flatMap_def, List.pairwise_flatten]
    refine ⟨?_, ?_⟩
    · intro l' hl'
      rw [List.mem_map] at hl'
      obtain ⟨slot, _, rfl⟩ := hl'
      exact subtract_disjoint slot o (hwf o (List.mem_cons_self o rest))
    · rw [List.pairwise_map]
      refine h.imp ?_
      intro a b hab x hx y hy
      exact overlaps_mono
        ⟨(subtract_within a o x hx).1, (subtract_within a o x hx).2⟩
        ⟨(subtract_within b o y hy).1, (subtract_within b o y hy).2⟩ hab

/-- Clamped commute expansion keeps a well-formed range well-formed. -/
theorem time_add_commute_wf {s e : Nat} {c : Int} (hse : s ≤ e) (hc : 0 ≤ c) :
    time_add_minutes s (-c) ≤ time_add_minutes e c := by
  unfold time_add_minutes
  have h : (s : Int) + (-c) ≤ (e : Int) + c := by omega
  exact Int.toNat_le_toNat (max_le_max (le_refl 0) (min_le_min h (le_refl _)))

/-- Profile whose duplicated work block breaks the non-overlap claim. -/
def overlapProfile : Profile :=
  { work_blocks := [⟨540, 660⟩, ⟨540, 660⟩] }

/-- **C4 counterexample.**  The slot invariants are claimed for *every*
profile, but nothing stops a profile from declaring overlapping (here
identical) `work_blocks`; the scheduler then returns two overlapping
slots.  On a profile with `09:00–11:00` listed twice the available slots
are those two ranges, which overlap. -/
theorem compute_available_slots_counterexample :
    compute_available_slots overlapProfile 739658 =
      [⟨540, 660⟩, ⟨540, 660⟩] ∧
    (TimeRange.mk 540 660).overlaps ⟨540, 660⟩ := by
  constructor
  · decide
  · decide

/-- **C4 (amended).**  For every profile and date: each available slot
has duration ≥ 10 minutes, lies inside one of the profile's
`work_blocks`, and the list is sorted by start time; and — provided the
profile's `work_blocks` are pairwise non-overlapping and every
fixed-routine window and weekly-event range is well-formed (start ≤ end,
commute ≥ 0) — the slots are pairwise non-overlapping. -/
theorem compute_available_slots_spec (profile : Profile) (target_ord : Int) :
    (∀ s ∈ compute_available_slots profile target_ord,
      10 ≤ s.duration_minutes) ∧
    (∀ s ∈ compute_available_slots profile target_ord,
      ∃ b ∈ profile.work_blocks, b.start ≤ s.start ∧ s.stop ≤ b.stop) ∧
    (compute_available_slots profile target_ord).Pairwise
      (fun a b => a.start ≤ b.start) ∧
    (profile.work_blocks.Pairwise (fun a b => ¬ a.overlaps b) →
     (∀ nr ∈ profile.fixed_routines, nr.2.start ≤ nr.2.stop) →
     (∀ ev ∈ profile.weekly_fixed_events,
        ev.time.start ≤ ev.time.stop ∧ 0 ≤ ev.commute_min_each_way) →
     (compute_available_slots profile target_ord).Pairwise
        (fun a b => ¬ a.overlaps b)) := by
  unfold compute_available_slots
  have hperm := pySort_perm (fun a b : TimeRange => decide (a.start ≤ b.start))
  refine ⟨?_, ?_, ?_, ?_⟩
  · intro s hs
    have hmem := (hperm _).mem_iff.mp hs
    have := List.of_mem_filter hmem
    simpa using this
  · intro s hs
    have hmem := (hperm _).mem_iff.mp hs
    have hmem2 := List.mem_of_mem_filter hmem
    refine foldl_subtract_within profile.work_blocks _ _ ?_ s hmem2
    intro s0 hs0
    rw [List.mem_map] at hs0
    obtain ⟨b, hb, rfl⟩ := hs0
    exact ⟨b, hb, le_refl _, le_refl _⟩
  · have htot : ∀ a b : TimeRange,
        (decide (a.start ≤ b.start) || decide (b.start ≤ a.start)) = true := by
      intro a b
      rcases Nat.le_total a.start b.start with h | h <;> simp [h]
    have htrans : ∀ a b c : TimeRange,
        decide (a.start ≤ b.start) = true → decide (b.start ≤ c.start) = true →
        decide (a.start ≤ c.start) = true := by
      intro a b c hab hbc
      simp only [decide_eq_true_eq] at hab hbc ⊢
      exact le_trans hab hbc
    exact List.Pairwise.imp (fun hab => by simpa using hab)
      (pySort_pairwise _ htot htrans _)
  · intro hwb hroutines hevents
    have hwf : ∀ o ∈ profile.fixed_routines.map (·.2) ++
        profile.weekly_fixed_events.filterMap (fun event =>
          if pyLower event.day == weekdayName target_ord then
            some (TimeRange.mk
              (time_add_minutes event.time.start (-event.commute_min_each_way))
              (time_add_minutes event.time.stop event.commute_min_each_way))
          else none), o.start ≤ o.stop := by
      intro o ho
      rw [List.mem_append] at ho
      rcases ho with ho | ho
      · rw [List.mem_map] at ho
        obtain ⟨nr, hnr, rfl⟩ := ho
        exact hroutines nr hnr
      · rw [List.mem_filterMap] at ho
        obtain ⟨ev, hev, hsome⟩ := ho
        by_cases hd : (pyLower ev.day == weekdayName target_ord) = true
        · rw [if_pos hd] at hsome
          obtain ⟨hse, hc⟩ := hevents ev hev
          cases hsome
          exact time_add_commute_wf hse hc
        · rw [if_neg hd] at hsome
          cases hsome
    have hinit : (profile.work_blocks.map
        (fun b => TimeRange.mk b.start b.stop)).Pairwise
          (fun a b => ¬ a.overlaps b) := by
      rw [List.pairwise_map]
      refine hwb.imp ?_
      intro a b hab
      exact fun hov => hab hov
    have hfold := foldl_subtract_disjoint _ _ hwf hinit
    have hfilter := hfold.filter (fun s => decide (10 ≤ s.duration_minutes))
    have hsymm : ∀ {x y : TimeRange}, ¬ x.overlaps y → ¬ y.overlaps x := by
      intro x y h hov
      exact h ⟨hov.2, hov.1⟩
    exact ((hperm _).pairwise_iff hsymm).mpr hfilter

/-- Witness for the amended C4 on a concrete profile: one work block
`09:00–12:00`, a lunch routine `12:00–12:30` (outside it), an event on
the target date's weekday; all four conclusions hold, the last under its
well-formedness hypotheses. -/
theorem compute_available_slots_spec_witness :
    (compute_available_slots
      { work_blocks := [⟨540, 720⟩],
        fixed_routines := [(lit "lunch", ⟨660, 690⟩)] } 739658).Pairwise
      (fun a b => ¬ a.overlaps b) :=
  (compute_available_slots_spec
    { work_blocks := [⟨540, 720⟩], fixed_routines := [(lit "lunch", ⟨660, 690⟩)] }
    739658).2.2.2 (by decide) (by decide) (by decide)
-- ════════ C5: greedy placement and unscheduledTasks ════════

/-- Every block the slot walk emits belongs to the walked task and is a
`task` block, and the `allocated` flag is set exactly when at least one
block was emitted. -/
theorem allocWalk_blocks (task : Task) :
    ∀ (rem : Int) (cursors : List (Nat × Nat)),
      (∀ b ∈ (allocWalk task rem cursors).blocks,
        b.task_id = task.id ∧ b.block_type = lit "task") ∧
      ((allocWalk task rem cursors).allocated = true ↔
        (allocWalk task rem cursors).blocks ≠ []) := by
  intro rem cursors
  induction cursors generalizing rem with
  | nil => simp [allocWalk]
  | cons c rest ih =>
    obtain ⟨cs, se⟩ := c
    simp only [allocWalk]
    split_ifs with h0 h1 h2
    · exact ⟨by simp, by simp⟩
    · exact ⟨(ih _).1, (ih _).2⟩
    · exact ⟨(ih _).1, (ih _).2⟩
    · refine ⟨?_, by simp⟩
      intro b hb
      rcases List.mem_cons.mp hb with rfl | hb
      · exact ⟨rfl, rfl⟩
      · exact (ih _).1 b hb

/-- Every block the outer loop emits belongs to some demanded task. -/
theorem allocAll_blocks :
    ∀ (needs : List (ℚ × Task × Int)) (cursors : List (Nat × Nat)),
      ∀ b ∈ (allocAll needs cursors).1,
        (∃ e ∈ needs, b.task_id = e.2.1.id) ∧ b.block_type = lit "task" := by
  intro needs
  induction needs with
  | nil => simp [allocAll]
  | cons e rest ih =>
    obtain ⟨score, task, needed⟩ := e
    intro cursors b hb
    simp only [allocAll] at hb
    rcases List.mem_append.mp hb with hb | hb
    · obtain ⟨h1, h2⟩ := (allocWalk_blocks task needed cursors).1 b hb
      exact ⟨⟨(score, task, needed), List.mem_cons_self _ _, h1⟩, h2⟩
    · obtain ⟨⟨e', he', heq⟩, h2⟩ := ih _ b hb
      exact ⟨⟨e', List.mem_cons_of_mem _ he', heq⟩, h2⟩

/-- Characterisation of `unscheduledTasks`: assuming the demanded task
ids are distinct, an id lands there exactly when it belongs to a
demanded task that received no block at all. -/
theorem allocAll_unscheduled :
    ∀ (needs : List (ℚ × Task × Int)) (cursors : List (Nat × Nat)),
      (needs.map (fun e => e.2.1.id)).Nodup →
      ∀ id, id ∈ (allocAll needs cursors).2 ↔
        ((∃ e ∈ needs, e.2.1.id = id) ∧
          ∀ b ∈ (allocAll needs cursors).1, b.task_id ≠ id) := by
  intro needs
  induction needs with
  | nil => simp [allocAll]
  | cons e rest ih =>
    obtain ⟨score, task, needed⟩ := e
    intro cursors hnodup id
    rw [List.map_cons] at hnodup
    have hnd := List.nodup_cons.mp hnodup
    have hnd1 : task.id ∉ rest.map (fun e => e.2.1.id) := hnd.1
    have hnd2 := hnd.2
    have hw := allocWalk_blocks task needed cursors
    simp only [allocAll]
    rw [List.mem_append]
    have htailblocks : ∀ b ∈ (allocAll rest
        (allocWalk task needed cursors).cursors).1, b.task_id ≠ task.id := by
      intro b hb heq
      obtain ⟨⟨e', he', heq'⟩, _⟩ := allocAll_blocks rest _ b hb
      exact hnd1 (List.mem_map.mpr ⟨e', he', by rw [← heq', ← heq]⟩)
    by_cases hid : id = task.id
    · subst hid
      have hnottail : task.id ∉ (allocAll rest (allocWalk task needed cursors).cursors).2 := by
        intro hmem
        obtain ⟨⟨e', he', heq⟩, _⟩ := (ih _ hnd2 task.id).mp hmem
        exact hnd1 (List.mem_map.mpr ⟨e', he', heq⟩)
      by_cases halloc : (allocWalk task needed cursors).allocated = true
      · rw [if_pos halloc]
        simp only [List.not_mem_nil, false_or]
        constructor
        · intro hmem
          exact absurd hmem hnottail
        · rintro ⟨_, hnob⟩
          obtain ⟨b, hb⟩ := List.exists_mem_of_ne_nil _ ((hw.2).mp halloc)
          exact absurd ((hw.1 b hb).1)
            (hnob b (List.mem_append_left _ hb))
      · rw [if_neg halloc]
        have hempty : (allocWalk task needed cursors).blocks = [] := by
          by_contra hne
          exact halloc ((hw.2).mpr hne)
        constructor
        · intro _
          refine ⟨⟨(score, task, needed), List.mem_cons_self _ _, rfl⟩, ?_⟩
          intro b hb
          rcases List.mem_append.mp hb with hb | hb
          · rw [hempty] at hb
            exact absurd hb (List.not_mem_nil b)
          · exact htailblocks b hb
        · intro _
          exact Or.inl (List.mem_singleton.mpr rfl)
    · constructor
      · intro hmem
        rcases hmem with hm | hm
        · by_cases halloc : (allocWalk task needed cursors).allocated = true
          · rw [if_pos halloc] at hm
            exact absurd hm (List.not_mem_nil id)
          · rw [if_neg halloc] at hm
            exact absurd (List.mem_singleton.mp hm) hid
        · obtain ⟨⟨e', he', heq⟩, hnob⟩ := (ih _ hnd2 id).mp hm
          refine ⟨⟨e', List.mem_cons_of_mem _ he', heq⟩, ?_⟩
          intro b hb
          rcases List.mem_append.mp hb with hb | hb
          · rw [((hw.1) b hb).1]
            exact fun he => hid he.symm
          · exact hnob b hb
      · rintro ⟨⟨e', he', heq⟩, hnob⟩
        rcases List.mem_cons.mp he' with rfl | he'
        · exact absurd heq.symm hid
        · refine Or.inr ((ih _ hnd2 id).mpr ⟨⟨e', he', heq⟩, ?_⟩)
          intro b hb
          exact hnob b (List.mem_append_right _ hb)

/-- **C5 (amended).**  Provided the demanded tasks have distinct ids, a
task id appears in `unscheduledTasks` exactly when that task is in the
demand list and the greedy placement produced *no* block for it: the
source adds a task only `if not allocated`, so a partially allocated task
whose demand is unmet is not reported. -/
theorem generate_schedule_unscheduled_spec (profile : Profile)
    (tf : TasksFile) (target_ord : Int)
    (hnodup : ((taskNeeds tf target_ord).map (fun e => e.2.1.id)).Nodup) :
    ∀ id, id ∈ (generate_schedule profile tf target_ord).unscheduled_tasks ↔
      ((∃ e ∈ taskNeeds tf target_ord, e.2.1.id = id) ∧
        ∀ b ∈ (generate_schedule profile tf target_ord).blocks,
          b.block_type = lit "task" → b.task_id ≠ id) := by
  intro id
  unfold generate_schedule
  dsimp only
  have hiff := allocAll_unscheduled (taskNeeds tf target_ord)
    ((compute_available_slots profile target_ord).map (fun s => (s.start, s.stop)))
    hnodup id
  rw [hiff]
  have hperm := pySort_perm (fun a b : ScheduledBlock => decide (a.start ≤ b.start))
  have hro : ∀ b ∈ profile.fixed_routines.map (fun nr =>
      ScheduledBlock.mk nr.2.start nr.2.stop nr.1 (pyTitle (replaceUnderscores nr.1))
        (nr.2.duration_minutes : Int) (lit "routine")) ++
      profile.weekly_fixed_events.filterMap (fun event =>
        if pyLower event.day == weekdayName target_ord then
          some (ScheduledBlock.mk event.time.start event.time.stop
            (slugify event.name) event.name (event.time.duration_minutes : Int)
            (lit "event"))
        else none),
      ¬ b.block_type = lit "task" := by
    intro b hb
    rcases List.mem_append.mp hb with hb | hb
    · rw [List.mem_map] at hb
      obtain ⟨nr, _, rfl⟩ := hb
      show ¬ lit "routine" = lit "task"
      decide
    · rw [List.mem_filterMap] at hb
      obtain ⟨ev, _, hsome⟩ := hb
      by_cases hd : (pyLower ev.day == weekdayName target_ord) = true
      · rw [if_pos hd] at hsome
        cases hsome
        show ¬ lit "event" = lit "task"
        decide
      · rw [if_neg hd] at hsome
        cases hsome
  constructor
  · rintro ⟨hex, hb1⟩
    refine ⟨hex, ?_⟩
    intro b hb htype
    have hmem := (hperm _).mem_iff.mp hb
    rcases List.mem_append.mp hmem with hm | hm
    · exact hb1 b hm
    · exact absurd htype (hro b hm)
  · rintro ⟨hex, hb2⟩
    refine ⟨hex, ?_⟩
    intro b hb
    have htype := (allocAll_blocks _ _ b hb).2
    refine hb2 b ?_ htype
    exact (hperm _).mem_iff.mpr (List.mem_append_left _ hb)
/-- Profile with a single one-hour work block, used by the C5 witness
and counterexample. -/
def splitProfile : Profile :=
  { work_blocks := [⟨540, 600⟩] }

/-- A deadline project demanding `max_chunk = 120` minutes per day. -/
def splitTask : Task :=
  { id := lit "t1", title := lit "T1", type := lit "deadline_project",
    remaining_hours := some 10, max_chunk_minutes := 120 }

/-- Tasks file around `splitTask`. -/
def splitTf : TasksFile := { tasks := [splitTask] }

/-- **C5 counterexample.**  The claim adds a task to `unscheduledTasks`
whenever its daily demand is still unmet after walking all slots.  Here
the task demands 120 minutes, the only slot provides 60, the greedy
placement emits a single 60-minute block (demand unmet by 60 minutes) —
yet `unscheduledTasks` is empty, because the source only records a task
`if not allocated`, i.e. when it received no block at all. -/
theorem generate_schedule_unmet_counterexample :
    (taskNeeds splitTf 739658).map (fun e => (e.2.1.id, e.2.2)) =
      [(lit "t1", 120)] ∧
    ((generate_schedule splitProfile splitTf 739658).blocks.map
      (fun b => (b.task_id, b.duration_minutes, b.block_type))) =
      [(lit "t1", 60, lit "task")] ∧
    (generate_schedule splitProfile splitTf 739658).unscheduled_tasks = [] := by
  refine ⟨by decide, by decide, by decide⟩

/-- Task whose 90-minute minimum chunk cannot fit the one-hour block. -/
def wideTask : Task :=
  { id := lit "t2", title := lit "T2", type := lit "open_ended",
    min_chunk_minutes := 90, max_chunk_minutes := 120 }

/-- Tasks file around `wideTask`. -/
def wideTf : TasksFile := { tasks := [wideTask] }

/-- Witness for the amended C5: the 90-minute-minimum task gets no block
in the one-hour day, so it is demanded and blockless by the theorem. -/
theorem generate_schedule_unscheduled_spec_witness :
    (∃ e ∈ taskNeeds wideTf 739658, e.2.1.id = lit "t2") ∧
    ∀ b ∈ (generate_schedule splitProfile wideTf 739658).blocks,
      b.block_type = lit "task" → b.task_id ≠ lit "t2" :=
  (generate_schedule_unscheduled_spec splitProfile wideTf 739658
    (by decide) (lit "t2")).mp (by decide)
-- ════════ C9: reflection prepending and the first heading ════════

theorem splitOnNl_ne_nil (s : List Char) : splitOnNl s ≠ [] := by
  cases s with
  | nil => simp [splitOnNl]
  | cons c rest =>
    simp only [splitOnNl]
    split_ifs
    · simp
    · cases h : splitOnNl rest <;> simp

theorem splitOnNl_append (xs ys : List Char) :
    splitOnNl (xs ++ '\n' :: ys) = splitOnNl xs ++ splitOnNl ys := by
  induction xs with
  | nil => simp [splitOnNl]
  | cons c rest ih =>
    by_cases hc : c = '\n'
    · subst hc
      simp [splitOnNl, ih]
    · simp only [List.cons_append, splitOnNl, List.append_eq, if_neg hc]
      rw [ih]
      cases h : splitOnNl rest with
      | nil => exact absurd h (splitOnNl_ne_nil rest)
      | cons l ls => simp

theorem splitOnNl_no_nl (s : List Char) (h : ¬ '\n' ∈ s) : splitOnNl s = [s] := by
  induction s with
  | nil => rfl
  | cons c rest ih =>
    have hc : ¬ c = '\n' := fun he => h (he ▸ List.mem_cons_self c rest)
    have hr : ¬ '\n' ∈ rest := fun hm => h (List.mem_cons_of_mem _ hm)
    simp [splitOnNl, if_neg hc, ih hr]

theorem firstHeading_top (rest today : List Char) (hnl : ¬ '\n' ∈ today) :
    firstHeadingDate (lit "## " ++ (today ++ '\n' :: rest)) = some today := by
  unfold firstHeadingDate
  rw [show lit "## " ++ (today ++ '\n' :: rest) =
    (lit "## " ++ today) ++ '\n' :: rest from by simp]
  rw [splitOnNl_append, splitOnNl_no_nl (lit "## " ++ today)
    (by intro hm; rcases List.mem_append.mp hm with h | h
        · exact absurd h (by decide)
        · exact hnl h)]
  rw [show ([lit "## " ++ today] ++ splitOnNl rest) =
    (lit "## " ++ today) :: splitOnNl rest from rfl]
  rw [List.find?_cons_of_pos _
    (List.isPrefixOf_iff_prefix.mpr (List.prefix_append _ _))]
  have hdrop : (lit "## " ++ today).drop 3 = today := List.drop_left (lit "## ") today
  simp [hdrop]

theorem firstHeading_insert (head rest today : List Char) (hnl : ¬ '\n' ∈ today)
    (hclean : ∀ l ∈ splitOnNl head, ¬ (lit "## ").isPrefixOf l = true) :
    firstHeadingDate (head ++ '\n' :: (lit "## " ++ (today ++ '\n' :: rest))) =
      some today := by
  unfold firstHeadingDate
  rw [splitOnNl_append]
  rw [show lit "## " ++ (today ++ '\n' :: rest) =
    (lit "## " ++ today) ++ '\n' :: rest from by simp]
  rw [splitOnNl_append, splitOnNl_no_nl (lit "## " ++ today)
    (by intro hm; rcases List.mem_append.mp hm with h | h
        · exact absurd h (by decide)
        · exact hnl h)]
  rw [List.find?_append, List.find?_eq_none.mpr hclean]
  rw [show ([lit "## " ++ today] ++ splitOnNl rest) =
    (lit "## " ++ today) :: splitOnNl rest from rfl]
  rw [List.find?_cons_of_pos _
    (List.isPrefixOf_iff_prefix.mpr (List.prefix_append _ _))]
  have hdrop : (lit "## " ++ today).drop 3 = today := List.drop_left (lit "## ") today
  simp [hdrop]

theorem pyStrip_id (a b : Char) (m : List Char)
    (ha : isPySpace a = false) (hb : isPySpace b = false) :
    pyStrip ((a :: m) ++ [b]) = (a :: m) ++ [b] := by
  unfold pyStrip
  have h1 : List.dropWhile isPySpace ((a :: m) ++ [b]) = (a :: m) ++ [b] := by
    simp [List.dropWhile_cons, ha]
  rw [h1, List.reverse_concat]
  have h2 : List.dropWhile isPySpace (b :: (a :: m).reverse) =
      b :: (a :: m).reverse := by
    simp [List.dropWhile_cons, hb]
  rw [h2, List.reverse_cons, List.reverse_reverse]

theorem joinNl_ends (ls : List (List Char)) (l : List Char) :
    ∃ pre, joinNl (ls ++ [l]) = pre ++ l := by
  induction ls with
  | nil => exact ⟨[], rfl⟩
  | cons a ls ih =>
    obtain ⟨pre, hp⟩ := ih
    cases ls with
    | nil => exact ⟨a ++ ['\n'], by simp [joinNl]⟩
    | cons b bs =>
      refine ⟨a ++ '\n' :: pre, ?_⟩
      show joinNl (a :: ((b :: bs) ++ [l])) = (a ++ '\n' :: pre) ++ l
      rw [show joinNl (a :: ((b :: bs) ++ [l])) =
        a ++ '\n' :: joinNl ((b :: bs) ++ [l]) from rfl, hp]
      simp

/-- Prefixing keeps the final character. -/
theorem ends_append (x y : List Char) (h : ∃ p, y = p ++ ['.']) :
    ∃ p, x ++ y = p ++ ['.'] := by
  obtain ⟨p, hp⟩ := h
  exact ⟨x ++ p, by rw [hp, List.append_assoc]⟩

theorem joinNl_snoc_ends (ls : List (List Char)) (l : List Char)
    (h : ∃ p, l = p ++ ['.']) : ∃ p, joinNl (ls ++ [l]) = p ++ ['.'] := by
  obtain ⟨pre, hp⟩ := joinNl_ends ls l
  rw [hp]
  exact ends_append _ _ h

/-- When the rating is one of the three canonical ones, the auto-summary
ends with a period (the per-rating advice sentence). -/
theorem summarize_ends_dot (day rating : List Char) (di : List (List Char))
    (refl : List Char)
    (hr : rating = lit "good" ∨ rating = lit "fair" ∨ rating = lit "bad") :
    ∃ pre, summarize_paragraph day rating di 0 refl = pre ++ ['.'] := by
  rcases hr with rfl | rfl | rfl
  · exact ends_append _ _
      ⟨lit "Keep the momentum; protect one deep block early tomorrow", by decide⟩
  · exact ends_append _ _
      ⟨lit "Aim for one deeper block next; reduce context switching", by decide⟩
  · exact ends_append _ _
      ⟨lit "Reset: pick one small win + one deep block tomorrow", by decide⟩

/-- `compute_rating` only ever returns the three canonical literals. -/
theorem compute_rating_mem (d t : Nat) (r : List Char) (a : Bool) :
    compute_rating d t r a = lit "good" ∨ compute_rating d t r a = lit "fair" ∨
      compute_rating d t r a = lit "bad" := by
  unfold compute_rating
  split_ifs
  · exact Or.inl rfl
  · exact Or.inr (Or.inl rfl)
  · exact Or.inr (Or.inr rfl)

/-- A reflection entry starts with the `## <today>` line and, when the
summary ends with a period, ends with that period. -/
theorem build_entry_shape (today nim rating mode : List Char)
    (di : List (List Char)) (items : List (List Char × CheckinItem))
    (refl summary : List Char) (hsum : ∃ p, summary = p ++ ['.']) :
    (∃ rest, build_reflection_entry today nim rating mode di items refl summary =
      (lit "## " ++ today) ++ '\n' :: rest) ∧
    (∃ pre, build_reflection_entry today nim rating mode di items refl summary =
      pre ++ ['.']) := by
  constructor
  · exact ⟨_, rfl⟩
  · unfold build_reflection_entry
    dsimp only
    have hlist : ∀ (A : List (List Char)) (RL : List Char),
        A ++ [[], lit "**Reflection**", RL, [], lit "**Auto-summary**",
            lit "- " ++ summary] =
        (A ++ [[], lit "**Reflection**", RL, [], lit "**Auto-summary**"]) ++
          [lit "- " ++ summary] := by
      intro A RL
      simp
    rw [hlist]
    exact joinNl_snoc_ends _ _ (ends_append _ _ hsum)
/-- `findSub` finds the FIRST occurrence of the pattern. -/
theorem findSub_some (pat s : List Char) (i : Nat) (h : findSub pat s = some i) :
    pat.isPrefixOf (s.drop i) = true ∧
      ∀ j < i, pat.isPrefixOf (s.drop j) = false := by
  induction s generalizing i with
  | nil =>
    unfold findSub at h
    split_ifs at h with hp
    injection h with hi
    subst hi
    exact ⟨hp, fun j hj => absurd hj (Nat.not_lt_zero j)⟩
  | cons c rest ih =>
    unfold findSub at h
    split_ifs at h with hp
    · injection h with hi
      subst hi
      exact ⟨hp, fun j hj => absurd hj (Nat.not_lt_zero j)⟩
    · cases hf : findSub pat rest with
      | none => rw [hf] at h; exact Option.noConfusion h
      | some k =>
        rw [hf] at h
        injection h with hi
        subst hi
        obtain ⟨h1, h2⟩ := ih k hf
        refine ⟨h1, fun j hj => ?_⟩
        cases j with
        | zero => exact Bool.eq_false_iff.mpr hp
        | succ j' => exact h2 j' (Nat.lt_of_succ_lt_succ hj)

theorem mem_dropWhile_of_neg (p : Char → Bool) (x : Char) (l : List Char)
    (hx : x ∈ l) (hp : p x = false) : x ∈ l.dropWhile p := by
  induction l with
  | nil => exact absurd hx (List.not_mem_nil x)
  | cons a t ih =>
    rw [List.dropWhile_cons]
    split_ifs with ha
    · rcases List.mem_cons.mp hx with rfl | hxt
      · simp [hp] at ha
      · exact ih hxt
    · exact hx

theorem mem_pyStrip (x : Char) (s : List Char) (hx : x ∈ s)
    (hp : isPySpace x = false) : x ∈ pyStrip s := by
  unfold pyStrip
  exact List.mem_reverse.mpr (mem_dropWhile_of_neg _ _ _
    (List.mem_reverse.mpr (mem_dropWhile_of_neg _ _ _ hx hp)) hp)

/-- A file containing the `---` marker is not blank after stripping. -/
theorem pyStrip_ne_of_marker (s : List Char) (i : Nat)
    (h : findSub reflMarker s = some i) : pyStrip s ≠ [] := by
  obtain ⟨h1, -⟩ := findSub_some _ _ _ h
  obtain ⟨t, ht⟩ := List.isPrefixOf_iff_prefix.mp h1
  have hdash : '-' ∈ s.drop i := by
    rw [← ht]
    exact List.mem_append.mpr (Or.inl (by decide))
  exact List.ne_nil_of_mem
    (mem_pyStrip '-' s (List.mem_of_mem_drop hdash) (by decide))

/-- A string that starts with a non-space character and ends in `'.'` is
fixed by `strip()`. -/
theorem strip_fixed_of_shape (e pre : List Char) (c : Char)
    (h1 : ∃ t, e = c :: t) (hc : isPySpace c = false)
    (h2 : e = pre ++ ['.']) : pyStrip e = e := by
  obtain ⟨t, h1⟩ := h1
  cases pre with
  | nil =>
    rw [h2] at h1 ⊢
    injection h1 with hc' ht
    subst hc'
    decide
  | cons a pre' =>
    rw [h2, List.cons_append] at h1
    injection h1 with ha _
    rw [h2]
    exact pyStrip_id a '.' pre' (by rw [ha]; exact hc) (by decide)

/-- Master lemma: prepending a well-shaped entry makes today's heading the
first one, for any of the three admissible shapes of the existing file. -/
theorem prepend_entry_first_heading (content entry today : List Char)
    (hnl : ¬ '\n' ∈ today)
    (hentry : ∃ rest, entry = (lit "## " ++ today) ++ '\n' :: rest)
    (hstrip : pyStrip entry = entry)
    (hfile : pyStrip content = [] ∨
      (pyStrip content ≠ [] ∧ findSub reflMarker content = none) ∨
      (∃ i, findSub reflMarker content = some i ∧
        ∀ l ∈ splitOnNl (content.take (i + reflMarker.length)),
          ¬ (lit "## ").isPrefixOf l = true)) :
    firstHeadingDate (prepend_reflection content entry) = some today := by
  obtain ⟨rest, hre⟩ := hentry
  have hnlnl : lit "\n\n" = ['\n', '\n'] := by decide
  unfold prepend_reflection
  dsimp only
  rcases hfile with hblank | ⟨hne1, hnone⟩ | ⟨i, hfind, hclean⟩
  · rw [if_pos hblank]
    rw [show findSub reflMarker reflHeader = some 60 from by decide]
    dsimp only
    rw [hstrip, hre]
    simp only [hnlnl, List.append_assoc, List.cons_append, List.nil_append]
    exact firstHeading_insert _ _ today hnl (by decide)
  · rw [if_neg hne1, hnone]
    dsimp only
    rw [hstrip, hre]
    simp only [hnlnl, List.append_assoc, List.cons_append, List.nil_append]
    exact firstHeading_top _ today hnl
  · rw [if_neg (pyStrip_ne_of_marker content i hfind), hfind]
    dsimp only
    rw [hstrip, hre]
    simp only [hnlnl, List.append_assoc, List.cons_append, List.nil_append]
    exact firstHeading_insert _ _ today hnl hclean
/-- The recovery-mode rating adjustment maps the three canonical ratings
to the three canonical ratings. -/
theorem rating_adjust_mem (c : Prop) [Decidable c] (r : List Char)
    (hr : r = lit "good" ∨ r = lit "fair" ∨ r = lit "bad") :
    (if c then lit "fair" else r) = lit "good" ∨
    (if c then lit "fair" else r) = lit "fair" ∨
    (if c then lit "fair" else r) = lit "bad" := by
  split_ifs
  · exact Or.inr (Or.inl rfl)
  · exact hr

/-- The entry built by `finalize_day` is `strip()`-fixed: it starts with
`#` and ends with the period of the auto-summary advice. -/
theorem entry_strip_fixed (today nim rating mode : List Char)
    (di : List (List Char)) (items : List (List Char × CheckinItem))
    (refl : List Char)
    (hr : rating = lit "good" ∨ rating = lit "fair" ∨ rating = lit "bad") :
    pyStrip (build_reflection_entry today nim rating mode di items refl
      (summarize_paragraph today rating di 0 refl)) =
    build_reflection_entry today nim rating mode di items refl
      (summarize_paragraph today rating di 0 refl) := by
  obtain ⟨h1all, h2all⟩ := build_entry_shape today nim rating mode di items refl _
    (summarize_ends_dot today rating di refl hr)
  obtain ⟨r1, hr1⟩ := h1all
  obtain ⟨p2, hp2⟩ := h2all
  exact strip_fixed_of_shape _ _ '#' ⟨_, by rw [hr1]; rfl⟩ (by decide) hp2

/-- **C9.** `prepend_reflection` inserts the stripped entry immediately
after the first `---\n\n` marker of a non-blank `reflections.md`
(`findSub` indeed locates the first occurrence), and prepends it to the
whole file when no marker is present; consequently, after a successful
`finalize_day` on a well-formed file (blank, markerless, or whose part up
to and including the first marker has no `## ` line) the first `## <date>`
heading of `reflections.md` is today's. -/
theorem prepend_reflection_spec (content entry : List Char) (ws : Workspace)
    (today : List Char) (now_ord : Int) (nim nis : List Char) :
    (pyStrip content ≠ [] → findSub reflMarker content = none →
      prepend_reflection content entry =
        pyStrip entry ++ lit "\n\n" ++ content) ∧
    (∀ i, findSub reflMarker content = some i →
      (prepend_reflection content entry =
        content.take (i + reflMarker.length) ++ ['\n'] ++ pyStrip entry ++
          lit "\n\n" ++ pyLStrip (content.drop (i + reflMarker.length))) ∧
      reflMarker.isPrefixOf (content.drop i) = true ∧
      ∀ j < i, reflMarker.isPrefixOf (content.drop j) = false) ∧
    (ws.draft.day = today → ws.state.last_finalized_date ≠ some today →
      ¬ '\n' ∈ today →
      (pyStrip ws.reflections = [] ∨
        (pyStrip ws.reflections ≠ [] ∧
          findSub reflMarker ws.reflections = none) ∨
        (∃ i, findSub reflMarker ws.reflections = some i ∧
          ∀ l ∈ splitOnNl (ws.reflections.take (i + reflMarker.length)),
            ¬ (lit "## ").isPrefixOf l = true)) →
      firstHeadingDate ((finalize_day ws today now_ord nim nis).2.reflections) =
        some today) := by
  refine ⟨fun hne1 hnone => ?_, fun i hf => ?_, fun hday hnotfin hnl hfile => ?_⟩
  · unfold prepend_reflection
    dsimp only
    rw [if_neg hne1, hnone]
  · refine ⟨?_, findSub_some _ _ _ hf⟩
    unfold prepend_reflection
    dsimp only
    rw [if_neg (pyStrip_ne_of_marker content i hf), hf]
  · unfold finalize_day
    rw [if_neg (fun hcon => hcon hday), if_neg hnotfin]
    dsimp only
    refine prepend_entry_first_heading _ _ today hnl ?_ ?_ hfile
    · exact (build_entry_shape _ _ _ _ _ _ _ _
        (summarize_ends_dot _ _ _ _
          (rating_adjust_mem _ _ (compute_rating_mem _ _ _ _)))).1
    · exact entry_strip_fixed _ _ _ _ _ _ _
        (rating_adjust_mem _ _ (compute_rating_mem _ _ _ _))

/-- A reflections file whose marker sits at index 25. -/
def c9Content : List Char :=
  lit "# Reflections (rolling)\n\n---\n\n## 2026-02-10\nold entry.\n"

/-- A reflection entry for the witness. -/
def c9Entry : List Char := lit "## 2026-02-11\nnew entry."

/-- A workspace about to finalize `2026-02-11` over a blank reflections
file. -/
def wsC9 : Workspace :=
  { draft := { day := lit "2026-02-11" }
    state := {}
    reflections := []
    tasksFile := {}
    plan := lit "# Plan"
    planPrev := none }

/-- Witness for C9: the marker of `c9Content` is found at 25 and the
entry lands right after it; finalizing `wsC9` puts `## 2026-02-11` first. -/
theorem prepend_reflection_spec_witness :
    (prepend_reflection c9Content c9Entry =
      c9Content.take (25 + reflMarker.length) ++ ['\n'] ++ pyStrip c9Entry ++
        lit "\n\n" ++ pyLStrip (c9Content.drop (25 + reflMarker.length))) ∧
    firstHeadingDate ((finalize_day wsC9 (lit "2026-02-11") 739658
        (lit "2026-02-11T09:00") (lit "2026-02-11T09:00:00")).2.reflections) =
      some (lit "2026-02-11") := by
  constructor
  · exact ((prepend_reflection_spec c9Content c9Entry wsC9 (lit "2026-02-11")
      739658 (lit "2026-02-11T09:00") (lit "2026-02-11T09:00:00")).2.1
        25 (by decide)).1
  · exact (prepend_reflection_spec c9Content c9Entry wsC9 (lit "2026-02-11")
      739658 (lit "2026-02-11T09:00") (lit "2026-02-11T09:00:00")).2.2
        rfl (by decide) (by decide) (Or.inl (by decide))

end MF
